import Mathlib

set_option maxHeartbeats 1600000
set_option maxRecDepth 8000

/-!
Verification of the eSocial data-exporter core against its design
specification.  Each Python function of the repository that a claim
touches is embedded as an executable Lean definition, and the claims are
settled as theorems about those definitions.

Conventions used throughout the embedding:
* Python `None` and JSON `null` are both represented by `JVal.null`; at
  the points where the Python code returns a value that the caller can
  only observe as `None` (a missing key, a failed extraction), the model
  returns `Option.none`.
* Python dictionaries are insertion-ordered association lists.
* A serialized `json_data` column is modelled by its parsed value: the
  source accepts an already-parsed dict in every function involved
  (`_extrair_valor_json` does `json.loads(json_data) if isinstance(json_data, str)
  else json_data`), and an unparseable or empty string behaves exactly
  like a falsy value, which the model keeps.
-/

/-! ## Values (src/src/utils/mapeador_campos_empresa.py) -/

/-- A Python/JSON value as it flows through the field mapper. -/
inductive JVal where
  | null : JVal
  | s (v : String) : JVal
  | n (v : Int) : JVal
  | obj (campos : List (String × JVal)) : JVal
  | arr (itens : List JVal) : JVal
deriving Repr, Inhabited

/-- Python truthiness test (`if not json_data`). -/
def jfalsy : JVal → Bool
  | .null => true
  | .s v => v == ""
  | .n v => v == 0
  | .obj campos => campos.isEmpty
  | .arr itens => itens.isEmpty

/-- A step of a JSON path: the mapping tables use string keys and, in a
few templates, integer indices. -/
inductive Chave where
  | k (v : String)
  | i (v : Int)
deriving Repr, DecidableEq

/-- The whitespace characters stripped by Python `str.strip()`. -/
def pyWhitespace (c : Char) : Bool :=
  c == ' ' || c == '\t' || c == '\n' || c == '\r' || c == '\x0b' || c == '\x0c'

/-- `not s.strip()`: true exactly when the string contains only whitespace. -/
def pyStripVazia (s : String) : Bool := s.toList.all pyWhitespace

/-- One lookup step of `_extrair_valor_json`'s walk:
`if isinstance(dados, dict) and chave in dados`.  An integer key is never
a member of a string-keyed dict, so it stops the walk. -/
def obterChave (campos : List (String × JVal)) (c : Chave) : Option JVal :=
  match c with
  | .k v => List.lookup v campos
  | .i _ => none

/-- The terminal rule of `_extrair_valor_json` (lines 1347-1356): unwrap a
`_text` key, unwrap a single-entry dict, reject other dicts, return
scalars and lists as they are.  A JSON `null` at the end is returned as
Python `None`, indistinguishable from a failed lookup. -/
def valorFinal : JVal → Option JVal
  | .obj campos =>
      match List.lookup "_text" campos with
      | some .null => none
      | some v => some v
      | none =>
          match campos with
          | [kv] => match kv.2 with | .null => none | v => some v
          | _ => none
  | .null => none
  | v => some v

/-- The key-walking loop of `_extrair_valor_json` (lines 1342-1346). -/
def caminhar : JVal → List Chave → Option JVal
  | dados, [] => valorFinal dados
  | .obj campos, c :: resto =>
      match obterChave campos c with
      | some v => caminhar v resto
      | none => none
  | _, _ :: _ => none

/-- `MapeadorCamposEmpresa._extrair_valor_json` (lines 1329-1358). -/
def extrair_valor_json (json_data : JVal) (caminho : List Chave) : Option JVal :=
  if jfalsy json_data || caminho.isEmpty then none
  else caminhar json_data caminho

/-- One field definition of the mapping tables (the per-template `campos`
entries of `MapeadorCamposEmpresa.mapeamentos`). -/
structure DefinicaoCampo where
  origem : String
  caminho_json : Option (List Chave) := none
  caminho_json_alternativos : List (List Chave) := []
  valor_padrao : Option JVal := none
  tipo : String := "string"
  obrigatorio : Bool := false
deriving Repr

/-- Python `v in (None, "")` on a mapper value: equality with `None` or
with the empty string. -/
def emNoneOuVazio : JVal → Bool
  | .null => true
  | .s v => v == ""
  | _ => false

/-- The acceptance test of `_extrair_valor_json_com_alternativos` line 1307:
`valor is not None and (not isinstance(valor, str) or valor.strip())`. -/
def valorAceito : Option JVal → Bool
  | none => false
  | some (.s v) => !(pyStripVazia v)
  | some _ => true

/-- The path loop of `_extrair_valor_json_com_alternativos` (lines 1305-1308). -/
def primeiroAceito (json_data : JVal) : List (List Chave) → Option JVal
  | [] => none
  | caminho :: resto =>
      let valor := extrair_valor_json json_data caminho
      if valorAceito valor then valor else primeiroAceito json_data resto

/-- `MapeadorCamposEmpresa._extrair_valor_json_com_alternativos`
(lines 1297-1310): primary path, then the alternatives in order, then the
field's default (`valor_padrao`, itself possibly `None`). -/
def extrair_valor_json_com_alternativos (json_data : JVal)
    (definicao_campo : DefinicaoCampo) : Option JVal :=
  match primeiroAceito json_data
      (definicao_campo.caminho_json.toList ++ definicao_campo.caminho_json_alternativos) with
  | some v => some v
  | none =>
      match definicao_campo.valor_padrao with
      | some .null => none
      | p => p

/-- One template of `MapeadorCamposEmpresa.mapeamentos`. -/
structure Mapeamento where
  fonte_principal : String := ""
  campos : List (String × DefinicaoCampo) := []
deriving Repr

/-- A database record as the exporter sees it: an ordered mapping from
column name to value. -/
abbrev Registro := List (String × JVal)

/-- Python `registro.get(k)`: a stored `None` and a missing key are the
same observation. -/
def registroObter (registro : Registro) (k : String) : Option JVal :=
  match List.lookup k registro with
  | some .null => none
  | some v => some v
  | none => none

/-- `MapeadorCamposEmpresa.obter_valor_campo` (lines 1312-1327),
parameterized by the mapping tables.  For a `json_data` origin the parsed
tree is fetched with `registro_bd.get("json_data") or ""` and resolved
through the alternative-path chain; for any other origin the flat column
named by the origin is returned directly, with no emptiness test and no
fallthrough. -/
def obter_valor_campo (mapeamentos : List (String × Mapeamento)) (template campo : String)
    (registro_bd : Registro) : Option JVal :=
  match List.lookup template mapeamentos with
  | none => none
  | some mapeamento_template =>
    match List.lookup campo mapeamento_template.campos with
    | none => none
    | some definicao_campo =>
      if definicao_campo.origem == "json_data" then
        let json_str := match registroObter registro_bd "json_data" with
          | some v => if jfalsy v then JVal.s "" else v
          | none => JVal.s ""
        extrair_valor_json_com_alternativos json_str definicao_campo
      else
        registroObter registro_bd definicao_campo.origem

/-- `ExportadorTemplatesEmpresa._extrair_valor_prioritario`
(src/src/exportadores/exportador_templates_empresa.py lines 173-187):
1. the record value stored under the template column label, when present
   and neither `None` nor `""`;
2. otherwise the mapper's `obter_valor_campo`, when neither `None` nor `""`;
3. otherwise the field's `valor_padrao`, defaulting to `""`. -/
def extrair_valor_prioritario (mapeamentos : List (String × Mapeamento))
    (registro : Registro) (coluna chave_template : String) : JVal :=
  let passo3 : JVal :=
    match List.lookup chave_template mapeamentos with
    | some m =>
      match List.lookup coluna m.campos with
      | some d => d.valor_padrao.getD (JVal.s "")
      | none => JVal.s ""
    | none => JVal.s ""
  let passo2 : JVal :=
    match obter_valor_campo mapeamentos chave_template coluna registro with
    | some v => if emNoneOuVazio v then passo3 else v
    | none => passo3
  match List.lookup coluna registro with
  | some v => if emNoneOuVazio v then passo2 else v
  | none => passo2

/-! ## C8 -/

/-- C8: a field whose primary path resolves to an empty value and whose
two alternative paths yield a non-empty value only on the second resolves
to that second alternative's value (not the default); and a resolved
value counts as empty exactly when it is undefined (`None`, which a JSON
`null` also becomes) or a string of only whitespace. -/
theorem c8_fallback_determinismo :
    (∀ (json_data : JVal) (d : DefinicaoCampo) (p a1 a2 : List Chave) (v : JVal),
      d.caminho_json = some p →
      d.caminho_json_alternativos = [a1, a2] →
      valorAceito (extrair_valor_json json_data p) = false →
      valorAceito (extrair_valor_json json_data a1) = false →
      extrair_valor_json json_data a2 = some v →
      valorAceito (some v) = true →
      extrair_valor_json_com_alternativos json_data d = some v) ∧
    (∀ o : Option JVal, valorAceito o = false ↔
      (o = none ∨ ∃ s, o = some (JVal.s s) ∧ pyStripVazia s = true)) := by
  constructor
  · intro json_data d p a1 a2 v hp halt h1 h2 h3 h4
    unfold extrair_valor_json_com_alternativos
    rw [hp, halt]
    simp [primeiroAceito, h1, h2, h3, h4]
  · intro o
    constructor
    · intro h
      match o with
      | none => exact Or.inl rfl
      | some .null => simp [valorAceito] at h
      | some (.s s) =>
        refine Or.inr ⟨s, rfl, ?_⟩
        simpa [valorAceito] using h
      | some (.n v) => simp [valorAceito] at h
      | some (.obj c) => simp [valorAceito] at h
      | some (.arr l) => simp [valorAceito] at h
    · rintro (rfl | ⟨s, rfl, hs⟩)
      · rfl
      · simp [valorAceito, hs]

/-- C8 witness: a concrete record whose primary path and first
alternative are empty and whose second alternative holds the value. -/
theorem c8_fallback_determinismo_witness :
    extrair_valor_json_com_alternativos
      (JVal.obj [("a", JVal.s "  "), ("b", JVal.obj [("_text", JVal.s "B")])])
      { origem := "json_data",
        caminho_json := some [Chave.k "p"],
        caminho_json_alternativos := [[Chave.k "a"], [Chave.k "b", Chave.k "_text"]],
        valor_padrao := some (JVal.s "D") } = some (JVal.s "B") :=
  c8_fallback_determinismo.1
    (JVal.obj [("a", JVal.s "  "), ("b", JVal.obj [("_text", JVal.s "B")])])
    { origem := "json_data",
      caminho_json := some [Chave.k "p"],
      caminho_json_alternativos := [[Chave.k "a"], [Chave.k "b", Chave.k "_text"]],
      valor_padrao := some (JVal.s "D") }
    [Chave.k "p"] [Chave.k "a"] [Chave.k "b", Chave.k "_text"] (JVal.s "B")
    rfl rfl rfl rfl rfl rfl

/-! ## C2 -/

/-- C2 counterexample: a field whose origin names the flat column `x`,
with a primary tree path that holds the non-empty value `V`.  On a record
where `x` is present but empty, the claimed order would fall through to
the tree and yield `V`; the code instead returns the empty flat value
from `obter_valor_campo` and the default from
`_extrair_valor_prioritario`, and never consults the tree. -/
theorem c2_contraexemplo_ordem_resolucao :
    extrair_valor_json (JVal.obj [("a", JVal.obj [("_text", JVal.s "V")])])
      [Chave.k "a", Chave.k "_text"] = some (JVal.s "V") ∧
    obter_valor_campo
      [("T", { fonte_principal := "t",
               campos := [("c", { origem := "x",
                                  caminho_json := some [Chave.k "a", Chave.k "_text"],
                                  valor_padrao := some (JVal.s "D") })] })]
      "T" "c"
      [("x", JVal.s ""), ("json_data", JVal.obj [("a", JVal.obj [("_text", JVal.s "V")])])]
      = some (JVal.s "") ∧
    extrair_valor_prioritario
      [("T", { fonte_principal := "t",
               campos := [("c", { origem := "x",
                                  caminho_json := some [Chave.k "a", Chave.k "_text"],
                                  valor_padrao := some (JVal.s "D") })] })]
      [("x", JVal.s ""), ("json_data", JVal.obj [("a", JVal.obj [("_text", JVal.s "V")])])]
      "c" "T" = JVal.s "D" ∧
    JVal.s "D" ≠ JVal.s "V" :=
  ⟨rfl, rfl, rfl, by simp⟩

/-- C2 as amended: the implemented resolution order is (1) the record
value stored under the template column label, when present and not
`None`/`""`; (2) otherwise `obter_valor_campo` — which for a
`json_data` origin walks the primary path, then the alternatives, then
the default, but for a flat-column origin returns that column's value
directly; (3) when step 2 yields `None`/`""`, the field's default.  A
flat origin that is empty or absent therefore falls through to the
default, never to the tree paths. -/
theorem c2_ordem_resolucao_corrigida :
    (∀ (M : List (String × Mapeamento)) (t campo : String) (R : Registro)
        (m : Mapeamento) (d : DefinicaoCampo),
      List.lookup t M = some m → List.lookup campo m.campos = some d →
      (d.origem == "json_data") = false →
      obter_valor_campo M t campo R = registroObter R d.origem) ∧
    (∀ (M : List (String × Mapeamento)) (R : Registro) (coluna t : String) (v : JVal),
      List.lookup coluna R = some v → emNoneOuVazio v = false →
      extrair_valor_prioritario M R coluna t = v) ∧
    (∀ (M : List (String × Mapeamento)) (R : Registro) (coluna t : String) (v : JVal),
      List.lookup coluna R = none →
      obter_valor_campo M t coluna R = some v → emNoneOuVazio v = false →
      extrair_valor_prioritario M R coluna t = v) ∧
    (∀ (M : List (String × Mapeamento)) (R : Registro) (coluna t : String)
        (m : Mapeamento) (d : DefinicaoCampo),
      List.lookup coluna R = none →
      List.lookup t M = some m → List.lookup coluna m.campos = some d →
      (∀ v, obter_valor_campo M t coluna R = some v → emNoneOuVazio v = true) →
      extrair_valor_prioritario M R coluna t = d.valor_padrao.getD (JVal.s "")) := by
  refine ⟨?_, ?_, ?_, ?_⟩
  · intro M t campo R m d hm hd ho
    unfold obter_valor_campo
    simp [hm, hd, ho]
  · intro M R coluna t v hv he
    unfold extrair_valor_prioritario
    simp [hv, he]
  · intro M R coluna t v hcol hv he
    unfold extrair_valor_prioritario
    simp [hcol, hv, he]
  · intro M R coluna t m d hcol hm hd hrej
    unfold extrair_valor_prioritario
    simp only [hcol, hm, hd]
    cases hov : obter_valor_campo M t coluna R with
    | none => simp
    | some v => simp [hrej v hov]

/-- C2 witness: the amended order at a concrete record — the label column
is absent, the flat origin is empty, and the default is produced. -/
theorem c2_ordem_resolucao_corrigida_witness :
    extrair_valor_prioritario
      [("T", { fonte_principal := "t",
               campos := [("c", { origem := "x",
                                  valor_padrao := some (JVal.s "D") })] })]
      [("x", JVal.s "")] "c" "T" = (some (JVal.s "D")).getD (JVal.s "") :=
  c2_ordem_resolucao_corrigida.2.2.2
    [("T", { fonte_principal := "t",
             campos := [("c", { origem := "x",
                                valor_padrao := some (JVal.s "D") })] })]
    [("x", JVal.s "")] "c" "T"
    { fonte_principal := "t",
      campos := [("c", { origem := "x", valor_padrao := some (JVal.s "D") })] }
    { origem := "x", valor_padrao := some (JVal.s "D") }
    rfl rfl rfl (by intro v hv; cases hv; rfl)

/-! ## Python numeric primitives shared by the storage and formatting layers

`int(...)` and `float(...)` on strings, modelled on the fragment of their
domain that the repository feeds them: optional surrounding whitespace,
an optional sign, and decimal digits with at most one point (the
exponent, infinity and NaN forms never arise from the eSocial data).
Floats are modelled as exact rationals. -/

/-- ASCII lowering of Python `str.lower()` (the SQL text the repository
lowers is ASCII). -/
def asciiMinuscula (c : Char) : Char :=
  if 'A' ≤ c ∧ c ≤ 'Z' then Char.ofNat (c.toNat + 32) else c

/-- ASCII raising of Python `str.upper()`. -/
def asciiMaiuscula (c : Char) : Char :=
  if 'a' ≤ c ∧ c ≤ 'z' then Char.ofNat (c.toNat - 32) else c

/-- Python substring test `agulha in palheiro` on character lists. -/
def contemSub (agulha : List Char) : List Char → Bool
  | [] => agulha.isEmpty
  | c :: resto => agulha.isPrefixOf (c :: resto) || contemSub agulha resto

/-- Digit-sequence value; `none` when empty or a non-digit appears. -/
def valorDigitos : List Char → Option Nat
  | [] => none
  | cs =>
    if cs.all Char.isDigit then
      some (cs.foldl (fun a c => 10 * a + (c.toNat - 48)) 0)
    else none

/-- Strip the optional sign, returning the sign factor. -/
def lerSinal : List Char → Int × List Char
  | '-' :: resto => (-1, resto)
  | '+' :: resto => (1, resto)
  | cs => (1, cs)

/-- Surrounding-whitespace strip of Python numeric conversion. -/
def tirarEspacos (cs : List Char) : List Char :=
  (cs.dropWhile pyWhitespace).reverse.dropWhile pyWhitespace |>.reverse

/-- Python `int(s)` on a decimal string. -/
def pyInt (s : String) : Option Int :=
  let (sinal, corpo) := lerSinal (tirarEspacos s.toList)
  (valorDigitos corpo).map (fun n => sinal * n)

/-- Python `float(s)` on a plain decimal string: `d+`, `d+.d*`, `.d+`,
with an optional sign; two points (as in `"1.234.56"`) fail. -/
def pyFloat (s : String) : Option Rat :=
  let (sinal, corpo) := lerSinal (tirarEspacos s.toList)
  let inteira := corpo.takeWhile (fun c => c ≠ '.')
  let resto := corpo.dropWhile (fun c => c ≠ '.')
  match resto with
  | [] => (valorDigitos inteira).map (fun n => mkRat (sinal * n) 1)
  | _ :: frac =>
    if frac.contains '.' then none
    else if inteira.isEmpty && frac.isEmpty then none
    else
      let ni := (valorDigitos inteira).getD 0
      let nf := (valorDigitos frac).getD 0
      if (inteira.isEmpty || (inteira.all Char.isDigit)) &&
         (frac.isEmpty || (frac.all Char.isDigit)) then
        some (mkRat (sinal * (ni * 10 ^ frac.length + nf)) (10 ^ frac.length))
      else none

/-! ## Storage engine (src/src/banco_dados/gerenciador_banco_dados.py) -/

/-- A value stored in an SQLite column. -/
inductive SqlVal where
  | null : SqlVal
  | s (v : String) : SqlVal
  | i (v : Int) : SqlVal
  | r (v : Rat) : SqlVal
deriving Repr, DecidableEq

/-- Python truthiness of a column value (`if ... valor ...`). -/
def sqlTruthy : SqlVal → Bool
  | .null => false
  | .s v => v ≠ ""
  | .i v => v ≠ 0
  | .r v => v ≠ 0

/-- A table as the manager sees it: the creation SQL recorded in
`sqlite_master`, the declared columns with their types (`PRAGMA
table_info`), the columns of its `UNIQUE` constraint (empty when none is
declared), and the stored rows.  Every stored row carries every declared
column, as SQLite rows do. -/
structure Tabela where
  sql : String
  tipos : List (String × String)
  unicas : List String
  linhas : List (List (String × SqlVal))
deriving Repr

/-- A mesma tabela com as linhas substituidas (resultado de uma gravacao). -/
def comLinhas (t : Tabela) (ls : List (List (String × SqlVal))) : Tabela :=
  Tabela.mk t.sql t.tipos t.unicas ls

/-- Truncation of Python `int(float)`. -/
def ratParaInt (q : Rat) : Int :=
  if 0 ≤ q then q.floor else -((-q).floor)

/-- The per-value validation of `inserir_dados` (lines 230-247): strings
feeding an INTEGER column go through `int(...)` (0 on failure), values
feeding a REAL column go through `float(...)` (0.0 on failure); falsy
values and values already of the right kind pass unchanged. -/
def converter (tipo : String) (valor : SqlVal) : SqlVal :=
  let eInt : Bool := match valor with | .i _ => true | _ => false
  let eReal : Bool := match valor with | .r _ => true | _ => false
  let valor :=
    if contemSub "INTEGER".toList tipo.toList && sqlTruthy valor && !eInt then
      match valor with
      | .s str => SqlVal.i ((pyInt str).getD 0)
      | .r q => SqlVal.i (ratParaInt q)
      | v => v
    else valor
  if contemSub "REAL".toList tipo.toList && sqlTruthy valor && !eReal then
    match valor with
    | .s str => SqlVal.r ((pyFloat str).getD 0)
    | .i n => SqlVal.r (n : Rat)
    | v => v
  else valor

/-- `"UNIQUE(" in table_sql.upper()` (line 205): the text probe deciding
between plain INSERT and UPSERT. -/
def temUnique (tab : Tabela) : Bool :=
  contemSub "UNIQUE(".toList (tab.sql.toList.map asciiMaiuscula)

/-- A row about to be inserted, as `(column, converted value)` pairs in
the order of `colunas = list(dados[0].keys())`. -/
abbrev Linha := List (String × SqlVal)

/-- The SQLite row an INSERT produces: every declared column, the
supplied ones with their values, the rest NULL (defaults are modelled as
NULL; no claim observes a defaulted column). -/
def expandirLinha (colsTab : List String) (lin : Linha) : Linha :=
  colsTab.map (fun c => (c, (List.lookup c lin).getD SqlVal.null))

/-- SQLite conflict test of the *targetless* upsert (the `ON CONFLICT`
of line 207 names no columns, so it fires on any uniqueness violation):
the insert collides with a stored row either on the `id INTEGER PRIMARY
KEY` — when the record supplies an explicit `id` equal to the stored
row's (a NULL or absent `id` is auto-assigned a fresh rowid, modelled
as NULL, and never collides) — or on the declared `UNIQUE` columns,
when every one holds the same non-NULL value on both sides (NULLs are
pairwise distinct for SQLite `UNIQUE`). -/
def conflita (unicas : List String) (lin row : Linha) : Bool :=
  (match List.lookup "id" lin, List.lookup "id" row with
   | some a, some b => a == b && !(a == SqlVal.null)
   | _, _ => false) ||
  (!unicas.isEmpty && unicas.all (fun c =>
    match List.lookup c row, List.lookup c lin with
    | some a, some b => a == b && !(a == SqlVal.null)
    | _, _ => false))

/-- The `DO UPDATE SET col = excluded.col` list (line 209): every
supplied column except the surrogate `id` is overwritten. -/
def atualizarLinha (colunas : List String) (lin row : Linha) : Linha :=
  row.map (fun kv =>
    if kv.1 ∈ colunas && kv.1 ≠ "id" then (kv.1, (List.lookup kv.1 lin).getD kv.2)
    else kv)

/-- One `INSERT ... ON CONFLICT DO UPDATE` against the stored rows:
update the first colliding row in place, else append. -/
def upsertLinha (colsTab colunas unicas : List String) (lin : Linha) :
    List Linha → List Linha
  | [] => [expandirLinha colsTab lin]
  | row :: resto =>
    if conflita unicas lin row then atualizarLinha colunas lin row :: resto
    else row :: upsertLinha colsTab colunas unicas lin resto

/-- One `executemany` applied to the open transaction: plain appends
without a `UNIQUE` constraint, upserts with one. -/
def executarLote (usarUpsert : Bool) (colsTab colunas unicas : List String)
    (pendentes : List Linha) (valores : List Linha) : List Linha :=
  if usarUpsert then
    valores.foldl (fun p lin => upsertLinha colsTab colunas unicas lin p) pendentes
  else pendentes ++ valores.map (expandirLinha colsTab)

/-- The mutable state of the batching loop of `inserir_dados`
(lines 216-261): the accumulated `valores`, the rows of the open
transaction, the running `registros_inseridos` and `erros` counters, and
the index of the next `executemany` call. -/
structure EstadoInsercao where
  valores : List Linha
  pendentes : List Linha
  inseridos : Nat
  erros : Nat
  lote : Nat
deriving Repr

/-- One iteration of the record loop: append the row to `valores` and,
at a full batch or at the last record, attempt `executemany`.  The
environment oracle `falha` says how each call goes: `none` is success —
the whole batch is applied, its length is added to the counter and
`valores` is cleared; `some j` is a statement raising at the batch's
`j`-th row — `cursor.executemany` is not atomic, so the rows *before*
the failing one stay applied inside the open transaction, the exception
is caught, the error counter grows and `valores` is *not* cleared, so
the whole batch (already-applied prefix included) rides along into the
next flush. -/
def passoLote (falha : Nat → Option Nat) (usarUpsert : Bool)
    (colsTab colunas unicas : List String) (ultimo : Bool)
    (st : EstadoInsercao) (lin : Linha) : EstadoInsercao :=
  let valores := st.valores ++ [lin]
  if valores.length ≥ 1000 || ultimo then
    match falha st.lote with
    | some j =>
      { st with
        valores := valores,
        pendentes := executarLote usarUpsert colsTab colunas unicas st.pendentes
          (valores.take j),
        erros := st.erros + 1,
        lote := st.lote + 1 }
    | none =>
      { st with
        valores := [],
        pendentes := executarLote usarUpsert colsTab colunas unicas st.pendentes valores,
        inseridos := st.inseridos + valores.length,
        lote := st.lote + 1 }
  else { st with valores := valores }

/-- The record loop, tracking `idx == len(dados) - 1`. -/
def lacoRegistros (falha : Nat → Option Nat) (usarUpsert : Bool)
    (colsTab colunas unicas : List String) :
    List Linha → EstadoInsercao → EstadoInsercao
  | [], st => st
  | [lin], st => passoLote falha usarUpsert colsTab colunas unicas true st lin
  | lin :: y :: ys, st =>
      lacoRegistros falha usarUpsert colsTab colunas unicas (y :: ys)
        (passoLote falha usarUpsert colsTab colunas unicas false st lin)

/-- One record projected onto the first record's columns and passed
through the per-column validation, exactly as the loop at lines 221-251
builds `valores_linha`. -/
def converterRegistro (tipos : List (String × String)) (colunas : List String)
    (reg : Linha) : Linha :=
  colunas.map (fun c =>
    (c, converter ((List.lookup c tipos).getD "") ((List.lookup c reg).getD SqlVal.null)))

/-- `GerenciadorBancoDados.inserir_dados` (lines 152-278), returning the
updated table contents and the reported insert count.  `falha` is the
environment oracle saying how each `executemany` call goes: `none` for
success, `some j` for a statement raising at the batch's `j`-th row,
with the prior rows left applied in the open transaction (which the
final `conn.commit()` then commits).  Missing table, empty data, or an
unknown column give `(unchanged, 0)`; a failure inside the batch loop is
caught in place and the remaining batches still run and commit; no
exception ever reaches the caller. -/
def inserir_dados (falha : Nat → Option Nat) (banco : List (String × Tabela))
    (nome_tabela : String) (dados : List (List (String × SqlVal))) :
    List (String × Tabela) × Nat :=
  if dados.isEmpty then (banco, 0)
  else
    match List.lookup nome_tabela banco with
    | none => (banco, 0)
    | some tabela =>
      let colunas := (dados.head?.getD []).map Prod.fst
      if colunas.all (fun c => (List.lookup c tabela.tipos).isSome) then
        let colsTab := tabela.tipos.map Prod.fst
        let linhas := dados.map (converterRegistro tabela.tipos colunas)
        let st := lacoRegistros falha (temUnique tabela) colsTab colunas tabela.unicas
          linhas { valores := [], pendentes := tabela.linhas,
                   inseridos := 0, erros := 0, lote := 0 }
        (banco.map (fun kv =>
          if kv.1 == nome_tabela then (kv.1, { tabela with linhas := st.pendentes }) else kv),
         st.inseridos)
      else (banco, 0)

/-- The fetch loop of `executar_query` (lines 324-338): batches of 100
rows (`fetchmany(100)` is empty exactly when the cursor is exhausted),
stopping when the cumulative count reaches 1000 or no rows remain. -/
def buscarLotes : List Linha → List Linha → Nat → List Linha
  | [], acumulado, _ => acumulado
  | x :: resto, acumulado, buscadas =>
    if buscadas + ((x :: resto).take 100).length ≥ 1000 then
      acumulado ++ (x :: resto).take 100
    else
      buscarLotes ((x :: resto).drop 100) (acumulado ++ (x :: resto).take 100)
        (buscadas + ((x :: resto).take 100).length)
termination_by restantes _ _ => restantes.length
decreasing_by
  simp only [List.length_drop, List.length_cons]
  omega

/-- `GerenciadorBancoDados.executar_query` (lines 280-355).  `resultado`
stands for the rows the database produces for the statement.  A
statement that does not start with `select`/`pragma`/`explain` is
refused with `[]`; a simple count query (`"count"` in the lowered SQL
and no `"group by"`) is fetched whole; every other read is fetched in
batches of 100 and silently cut off at 1000 rows — the caller receives a
plain list with no error indication. -/
def executar_query (sql : String) (resultado : List Linha) : List Linha :=
  let sql_lower := tirarEspacos (sql.toList.map asciiMinuscula)
  if !("select".toList.isPrefixOf sql_lower || "pragma".toList.isPrefixOf sql_lower ||
       "explain".toList.isPrefixOf sql_lower) then []
  else if contemSub "count".toList sql_lower && !(contemSub "group by".toList sql_lower) then
    resultado
  else buscarLotes resultado [] 0

/-- Next multiple of 100 covering the still-wanted row count. -/
def proximoLote100 (n : Nat) : Nat := (n + 99) / 100 * 100

theorem buscarLotes_take :
    ∀ (cota : Nat) (restantes : List Linha), restantes.length ≤ cota →
      ∀ (acumulado : List Linha) (buscadas : Nat), buscadas < 1000 →
      buscarLotes restantes acumulado buscadas =
        acumulado ++ restantes.take (proximoLote100 (1000 - buscadas)) := by
  intro cota
  induction cota with
  | zero =>
    intro restantes hlen acumulado buscadas _
    have hv : restantes = [] := List.length_eq_zero.mp (Nat.le_zero.mp hlen)
    subst hv
    simp [buscarLotes]
  | succ m ih =>
    intro restantes hlen acumulado buscadas hb
    cases restantes with
    | nil => simp [buscarLotes]
    | cons x resto =>
      rw [buscarLotes]
      have hle100 : ((x :: resto).take 100).length ≤ 100 := List.length_take_le 100 _
      by_cases hcheio : buscadas + ((x :: resto).take 100).length ≥ 1000
      · rw [if_pos hcheio]
        have hlt : proximoLote100 (1000 - buscadas) = 100 := by
          unfold proximoLote100
          omega
        rw [hlt]
      · rw [if_neg hcheio]
        have hlen2 : ((x :: resto).drop 100).length ≤ m := by
          simp only [List.length_drop, List.length_cons]
          simp only [List.length_cons] at hlen
          omega
        rw [ih ((x :: resto).drop 100) hlen2 _ _ (by omega)]
        by_cases hgrande : 100 ≤ (x :: resto).length
        · have htl : ((x :: resto).take 100).length = 100 := by
            rw [List.length_take]
            omega
          rw [List.append_assoc]
          congr 1
          rw [htl]
          have hsoma : proximoLote100 (1000 - buscadas) =
              100 + proximoLote100 (1000 - (buscadas + 100)) := by
            unfold proximoLote100
            omega
          rw [hsoma, List.take_add]
        · have htl : (x :: resto).take 100 = x :: resto :=
            List.take_of_length_le (by omega)
          have htl2 : ((x :: resto).take 100).length = (x :: resto).length := by
            rw [htl]
          have hdrop : (x :: resto).drop 100 = [] :=
            List.drop_eq_nil_of_le (by omega)
          have hresto : (x :: resto).take (proximoLote100 (1000 - buscadas)) = x :: resto := by
            apply List.take_of_length_le
            have : 1000 - buscadas ≤ proximoLote100 (1000 - buscadas) := by
              unfold proximoLote100
              omega
            omega
          rw [htl, hdrop, hresto]
          simp

/-- C10: a read query that is not a simple count query returns at most
1000 rows — exactly the first 1000 the cursor yields — and the result is
an ordinary row list carrying no error indication, so rows beyond the
first 1000 are silently dropped. -/
theorem c10_truncamento_consulta (sql : String) (resultado : List Linha)
    (hleitura : "select".toList.isPrefixOf (tirarEspacos (sql.toList.map asciiMinuscula)) = true)
    (hnaocount : (contemSub "count".toList (tirarEspacos (sql.toList.map asciiMinuscula)) &&
      !(contemSub "group by".toList (tirarEspacos (sql.toList.map asciiMinuscula)))) = false) :
    executar_query sql resultado = resultado.take 1000 ∧
    (executar_query sql resultado).length ≤ 1000 := by
  have hq : executar_query sql resultado = resultado.take 1000 := by
    unfold executar_query
    simp only [hleitura, Bool.true_or, Bool.not_true, Bool.false_eq_true, if_false, hnaocount]
    rw [buscarLotes_take resultado.length resultado (le_refl _) [] 0 (by omega)]
    simp [proximoLote100]
  refine ⟨hq, ?_⟩
  rw [hq]
  exact List.length_take_le 1000 resultado

/-- C10 witness: a 1001-row result set for a plain select comes back
truncated to its first 1000 rows. -/
theorem c10_truncamento_consulta_witness :
    executar_query "SELECT * FROM esocial_s2200"
        (List.replicate 1001 [("id", SqlVal.i 1)]) =
      (List.replicate 1001 [("id", SqlVal.i 1)]).take 1000 ∧
    (executar_query "SELECT * FROM esocial_s2200"
        (List.replicate 1001 [("id", SqlVal.i 1)])).length ≤ 1000 :=
  c10_truncamento_consulta "SELECT * FROM esocial_s2200"
    (List.replicate 1001 [("id", SqlVal.i 1)]) (by decide) (by decide)

/-! ## C1 -/

theorem executarLote_simples (ct c u : List String) (p v : List Linha) :
    executarLote false ct c u p v = p ++ v.map (expandirLinha ct) := by
  simp [executarLote]

/-- Effect of one loop iteration on the open transaction when the table
has no `UNIQUE` constraint: the committed rows only grow, the insert
counter grows by at most as much (a failed call applies its prefix but
counts nothing), and exactly as much when the call succeeds. -/
theorem passoLote_simples_efeito (falha : Nat → Option Nat) (ct c u : List String)
    (ultimo : Bool) (st : EstadoInsercao) (lin : Linha) :
    ∃ (delta : List Linha) (m : Nat),
      (passoLote falha false ct c u ultimo st lin).pendentes = st.pendentes ++ delta ∧
      (passoLote falha false ct c u ultimo st lin).inseridos = st.inseridos + m ∧
      m ≤ delta.length ∧
      ((∀ k, falha k = none) → m = delta.length) := by
  unfold passoLote
  by_cases hc : (decide ((st.valores ++ [lin]).length ≥ 1000) || ultimo) = true
  · rw [if_pos hc]
    cases hf : falha st.lote with
    | some j =>
      refine ⟨((st.valores ++ [lin]).take j).map (expandirLinha ct), 0, ?_, ?_, ?_, ?_⟩
      · simp [executarLote_simples]
      · simp
      · simp
      · intro hall
        rw [hall st.lote] at hf
        exact absurd hf (by simp)
    | none =>
      refine ⟨(st.valores ++ [lin]).map (expandirLinha ct),
        (st.valores ++ [lin]).length, ?_, ?_, ?_, ?_⟩
      · simp [executarLote_simples]
      · simp
      · simp
      · intro _
        simp
  · rw [if_neg hc]
    exact ⟨[], 0, by simp, by simp, by simp, fun _ => by simp⟩

/-- Effect of the whole record loop without a `UNIQUE` constraint. -/
theorem laco_simples_efeito (falha : Nat → Option Nat) (ct c u : List String) :
    ∀ (linhas : List Linha) (st : EstadoInsercao),
      ∃ (extra : List Linha) (m : Nat),
        (lacoRegistros falha false ct c u linhas st).pendentes =
          st.pendentes ++ extra ∧
        (lacoRegistros falha false ct c u linhas st).inseridos =
          st.inseridos + m ∧
        m ≤ extra.length ∧
        ((∀ k, falha k = none) → m = extra.length) := by
  intro linhas
  induction linhas with
  | nil =>
    intro st
    exact ⟨[], 0, by simp [lacoRegistros], by simp [lacoRegistros], by simp,
      fun _ => by simp⟩
  | cons lin resto ih =>
    intro st
    cases resto with
    | nil =>
      obtain ⟨d, m, h1, h2, h3, h4⟩ := passoLote_simples_efeito falha ct c u true st lin
      exact ⟨d, m, h1, h2, h3, h4⟩
    | cons y ys =>
      obtain ⟨d, m1, h1, h2, h3, h4⟩ := passoLote_simples_efeito falha ct c u false st lin
      obtain ⟨e, m2, g1, g2, g3, g4⟩ := ih (passoLote falha false ct c u false st lin)
      refine ⟨d ++ e, m1 + m2, ?_, ?_, ?_, ?_⟩
      · rw [lacoRegistros, g1, h1, List.append_assoc]
      · rw [lacoRegistros, g2, h2]
        omega
      · rw [List.length_append]
        omega
      · intro hall
        rw [List.length_append, h4 hall, g4 hall]

theorem lookup_substituir (banco : List (String × Tabela)) (nome : String) (t0 : Tabela) :
    List.lookup nome (banco.map (fun kv => if kv.1 == nome then (kv.1, t0) else kv)) =
      (List.lookup nome banco).map (fun _ => t0) := by
  induction banco with
  | nil => rfl
  | cons kv resto ih =>
    rw [List.map_cons]
    cases hbeq : kv.1 == nome with
    | true =>
      have he : kv.1 = nome := eq_of_beq hbeq
      subst he
      simp [List.lookup]
    | false =>
      have h2 : (nome == kv.1) = false := by
        apply beq_eq_false_iff_ne.mpr
        exact fun he => (beq_eq_false_iff_ne.mp hbeq) he.symm
      simp only [List.lookup, hbeq, h2]
      simpa using ih

/-- C1 as amended: a failed `executemany` is caught inside the loop and
does not raise; the batch stays buffered (retried at the next flush or
dropped at the end), but the rows it applied before raising stay in the
open transaction and `conn.commit()` commits them along with the
successful batches.  The call returns only the total of the successful
`executemany` calls, so rows are only ever appended, the table grows by
*at least* the reported count (a failure can commit a prefix the count
never mentions, and a retried buffer re-applies it), and by exactly the
reported count when every call succeeds.  No failure mode rolls the
table back or surfaces an exception. -/
theorem c1_insercao_corrigida (falha : Nat → Option Nat) (banco : List (String × Tabela))
    (nome : String) (dados : List (List (String × SqlVal))) (tabela : Tabela)
    (htab : List.lookup nome banco = some tabela)
    (hu : temUnique tabela = false) :
    ∃ novas : List Linha,
      (List.lookup nome (inserir_dados falha banco nome dados).1).map Tabela.linhas =
        some (tabela.linhas ++ novas) ∧
      (inserir_dados falha banco nome dados).2 ≤ novas.length ∧
      ((∀ k, falha k = none) →
        novas.length = (inserir_dados falha banco nome dados).2) := by
  unfold inserir_dados
  by_cases hd : dados.isEmpty
  · refine ⟨[], ?_, ?_, fun _ => ?_⟩
    · simp [hd, htab]
    · simp [hd]
    · simp [hd]
  · simp only [hd, Bool.false_eq_true, if_false, htab]
    by_cases hcols : (((dados.head?.getD []).map Prod.fst).all
        (fun c => (List.lookup c tabela.tipos).isSome)) = true
    · simp only [hcols, if_true, hu]
      obtain ⟨extra, m, h1, h2, h3, h4⟩ := laco_simples_efeito falha
        (tabela.tipos.map Prod.fst) ((dados.head?.getD []).map Prod.fst) tabela.unicas
        (dados.map (converterRegistro tabela.tipos ((dados.head?.getD []).map Prod.fst)))
        { valores := [], pendentes := tabela.linhas, inseridos := 0, erros := 0, lote := 0 }
      refine ⟨extra, ?_, ?_, ?_⟩
      · rw [lookup_substituir, htab]
        rw [h1]
        rfl
      · rw [h2]
        simpa using h3
      · intro hall
        rw [h2, h4 hall]
        simp
    · simp only [hcols, Bool.false_eq_true, if_false]
      refine ⟨[], ?_, ?_, fun _ => rfl⟩
      · rw [htab]
        simp
      · simp

theorem passoLote_sem_flush (falha : Nat → Option Nat) (up : Bool) (ct c u : List String)
    (st : EstadoInsercao) (lin : Linha)
    (h : (st.valores ++ [lin]).length < 1000) :
    passoLote falha up ct c u false st lin = { st with valores := st.valores ++ [lin] } := by
  unfold passoLote
  have hc : ¬((decide ((st.valores ++ [lin]).length ≥ 1000) || false) = true) := by
    simp only [Bool.or_false, decide_eq_true_eq]
    omega
  rw [if_neg hc]

/-- Running the loop through `k` records without reaching a batch
boundary only accumulates them in `valores`. -/
theorem laco_sem_flush (falha : Nat → Option Nat) (up : Bool) (ct c u : List String) :
    ∀ (k : Nat) (lin : Linha) (resto : List Linha) (st : EstadoInsercao),
      resto ≠ [] → st.valores.length + k < 1000 →
      lacoRegistros falha up ct c u (List.replicate k lin ++ resto) st =
        lacoRegistros falha up ct c u resto
          { st with valores := st.valores ++ List.replicate k lin } := by
  intro k
  induction k with
  | zero =>
    intro lin resto st h1 h2
    simp
  | succ m ih =>
    intro lin resto st h1 h2
    rw [List.replicate_succ, List.cons_append]
    cases hrep : List.replicate m lin ++ resto with
    | nil =>
      exact absurd (List.append_eq_nil.mp hrep).2 h1
    | cons y ys =>
      rw [lacoRegistros, ← hrep]
      rw [passoLote_sem_flush falha up ct c u st lin (by simp; omega)]
      rw [ih lin resto _ h1 (by simp; omega)]
      congr 1
      simp [List.replicate_succ, List.append_assoc]

/-- The one-column test table of the C1 scenarios. -/
def tabelaC1 : Tabela :=
  { sql := "CREATE TABLE teste (a TEXT)", tipos := [("a", "TEXT")], unicas := [], linhas := [] }

/-- The record inserted in the C1 scenarios. -/
def linhaC1 : List (String × SqlVal) := [("a", SqlVal.s "x")]

theorem inserir_dados_teste_contagem (falha : Nat → Option Nat) (n : Nat) :
    (inserir_dados falha [("teste", tabelaC1)] "teste" (List.replicate (n + 1) linhaC1)).2 =
      (lacoRegistros falha false ["a"] ["a"] [] (List.replicate (n + 1) linhaC1)
        { valores := [], pendentes := [], inseridos := 0, erros := 0, lote := 0 }).inseridos := by
  unfold inserir_dados
  simp only [List.map_replicate]
  rfl

theorem inserir_dados_teste_tabela (falha : Nat → Option Nat) (n : Nat) :
    (inserir_dados falha [("teste", tabelaC1)] "teste" (List.replicate (n + 1) linhaC1)).1 =
      [("teste", { tabelaC1 with
        linhas := (lacoRegistros falha false ["a"] ["a"] [] (List.replicate (n + 1) linhaC1)
          { valores := [], pendentes := [], inseridos := 0, erros := 0, lote := 0 }).pendentes })] := by
  unfold inserir_dados
  simp only [List.map_replicate]
  rfl

theorem passoLote_flush_falha (falha : Nat → Option Nat) (up : Bool) (ct c u : List String)
    (ultimo : Bool) (st : EstadoInsercao) (lin : Linha) (j : Nat)
    (hcond : (decide ((st.valores ++ [lin]).length ≥ 1000) || ultimo) = true)
    (hf : falha st.lote = some j) :
    passoLote falha up ct c u ultimo st lin =
      { st with
        valores := st.valores ++ [lin],
        pendentes := executarLote up ct c u st.pendentes ((st.valores ++ [lin]).take j),
        erros := st.erros + 1,
        lote := st.lote + 1 } := by
  unfold passoLote
  rw [if_pos hcond, hf]

theorem passoLote_flush_sucesso (falha : Nat → Option Nat) (up : Bool) (ct c u : List String)
    (ultimo : Bool) (st : EstadoInsercao) (lin : Linha)
    (hcond : (decide ((st.valores ++ [lin]).length ≥ 1000) || ultimo) = true)
    (hf : falha st.lote = none) :
    passoLote falha up ct c u ultimo st lin =
      { st with
        valores := [],
        pendentes := executarLote up ct c u st.pendentes (st.valores ++ [lin]),
        inseridos := st.inseridos + (st.valores ++ [lin]).length,
        lote := st.lote + 1 } := by
  unfold passoLote
  rw [if_pos hcond, hf]

/-- C1 counterexample.  Scenario one: two records whose single
`executemany` raises at the second row — the call reports zero, yet one
row is committed (the applied prefix), so even an all-fail run changes
the table.  Scenario two: 1001 records, the first `executemany` raises
at its second row and the retry of the still-buffered batch succeeds —
the call reports 1001, not zero, and 1002 rows are committed: the
prefix row was applied twice.  Scenario three: 2000 records, the second
`executemany` fails outright — the call reports 1000 and exactly the
first 1000 records stay committed: a partial subset. -/
theorem c1_contraexemplo :
    ((inserir_dados (fun _ => some 1) [("teste", tabelaC1)] "teste"
        [linhaC1, linhaC1]).2 = 0 ∧
      (List.lookup "teste" (inserir_dados (fun _ => some 1) [("teste", tabelaC1)] "teste"
          [linhaC1, linhaC1]).1).map (fun t => t.linhas.length) = some 1 ∧
      (1 : Nat) ≠ 0) ∧
    ((inserir_dados (fun k => if k == 0 then some 1 else none) [("teste", tabelaC1)]
        "teste" (List.replicate 1001 linhaC1)).2 = 1001 ∧
      (List.lookup "teste" (inserir_dados (fun k => if k == 0 then some 1 else none)
          [("teste", tabelaC1)] "teste" (List.replicate 1001 linhaC1)).1).map
        (fun t => t.linhas.length) = some 1002 ∧
      (1001 : Nat) ≠ 0 ∧ (1002 : Nat) ≠ 1001) ∧
    ((inserir_dados (fun k => if k == 1 then some 0 else none) [("teste", tabelaC1)]
        "teste" (List.replicate 2000 linhaC1)).2 = 1000 ∧
      (List.lookup "teste" (inserir_dados (fun k => if k == 1 then some 0 else none)
          [("teste", tabelaC1)] "teste" (List.replicate 2000 linhaC1)).1).map
        (fun t => t.linhas.length) = some 1000 ∧
      (1000 : Nat) ≠ 2000) := by
  have hcond1000 : ∀ ultimo : Bool,
      (decide ((([] ++ List.replicate 999 linhaC1) ++ [linhaC1]).length ≥ 1000) || ultimo)
        = true := by
    intro ultimo
    simp only [List.length_append, List.length_replicate, List.length_cons,
      List.length_nil, List.nil_append]
    rw [decide_eq_true (by omega : (999 : Nat) + 1 ≥ 1000)]
    exact Bool.true_or ultimo
  have hproj : ∀ ls : List Linha,
      (List.lookup "teste" [("teste", { tabelaC1 with linhas := ls })]).map
        (fun t => t.linhas.length) = some ls.length := fun _ => rfl
  refine ⟨⟨rfl, rfl, by omega⟩, ?_, ?_⟩
  · -- scenario two: fail at row 1 of the first batch, retry succeeds
    have hst1 : lacoRegistros (fun k => if k == 0 then some 1 else none) false
        ["a"] ["a"] [] (List.replicate 1001 linhaC1)
        { valores := [], pendentes := [], inseridos := 0, erros := 0, lote := 0 } =
        lacoRegistros (fun k => if k == 0 then some 1 else none) false
        ["a"] ["a"] [] [linhaC1, linhaC1]
        { valores := [] ++ List.replicate 999 linhaC1, pendentes := [],
          inseridos := 0, erros := 0, lote := 0 } := by
      rw [show (1001 : Nat) = 999 + 2 from rfl, List.replicate_add]
      rw [laco_sem_flush (fun k => if k == 0 then some 1 else none) false ["a"] ["a"] []
        999 linhaC1 (List.replicate 2 linhaC1) _ (by decide) (by decide)]
      rfl
    have hpasso1 : passoLote (fun k => if k == 0 then some 1 else none) false
        ["a"] ["a"] [] false
        { valores := [] ++ List.replicate 999 linhaC1, pendentes := [],
          inseridos := 0, erros := 0, lote := 0 } linhaC1 =
        { valores := ([] ++ List.replicate 999 linhaC1) ++ [linhaC1],
          pendentes := executarLote false ["a"] ["a"] []
            [] ((([] ++ List.replicate 999 linhaC1) ++ [linhaC1]).take 1),
          inseridos := 0, erros := 1, lote := 1 } := by
      rw [passoLote_flush_falha _ _ _ _ _ _ _ _ 1 (hcond1000 false) rfl]
    have hpasso2 : passoLote (fun k => if k == 0 then some 1 else none) false
        ["a"] ["a"] [] true
        { valores := ([] ++ List.replicate 999 linhaC1) ++ [linhaC1],
          pendentes := executarLote false ["a"] ["a"] []
            [] ((([] ++ List.replicate 999 linhaC1) ++ [linhaC1]).take 1),
          inseridos := 0, erros := 1, lote := 1 } linhaC1 =
        { valores := [],
          pendentes := executarLote false ["a"] ["a"] []
            (executarLote false ["a"] ["a"] []
              [] ((([] ++ List.replicate 999 linhaC1) ++ [linhaC1]).take 1))
            ((([] ++ List.replicate 999 linhaC1) ++ [linhaC1]) ++ [linhaC1]),
          inseridos := 0 + ((([] ++ List.replicate 999 linhaC1) ++ [linhaC1])
            ++ [linhaC1]).length,
          erros := 1, lote := 2 } := by
      rw [passoLote_flush_sucesso _ _ _ _ _ _ _ _ (by rw [Bool.or_true]) rfl]
    refine ⟨?_, ?_, by omega, by omega⟩
    · rw [show (1001 : Nat) = 1000 + 1 from rfl, inserir_dados_teste_contagem,
        show (1000 : Nat) + 1 = 1001 from rfl]
      rw [hst1, lacoRegistros, hpasso1, lacoRegistros, hpasso2]
      simp
    · rw [show (1001 : Nat) = 1000 + 1 from rfl, inserir_dados_teste_tabela,
        show (1000 : Nat) + 1 = 1001 from rfl]
      rw [hst1, lacoRegistros, hpasso1, lacoRegistros, hpasso2, hproj]
      dsimp only
      rw [executarLote_simples, executarLote_simples]
      simp only [Option.some.injEq, List.length_append, List.length_map, List.length_take,
        List.length_nil, List.length_cons, List.length_replicate, List.nil_append]
      omega
  · -- scenario three: second batch fails outright
    have hst1b : lacoRegistros (fun k => if k == 1 then some 0 else none) false
        ["a"] ["a"] [] (List.replicate 2000 linhaC1)
        { valores := [], pendentes := [], inseridos := 0, erros := 0, lote := 0 } =
        lacoRegistros (fun k => if k == 1 then some 0 else none) false ["a"] ["a"] []
        (linhaC1 :: linhaC1 :: List.replicate 999 linhaC1)
        { valores := [] ++ List.replicate 999 linhaC1, pendentes := [],
          inseridos := 0, erros := 0, lote := 0 } := by
      rw [show (2000 : Nat) = 999 + 1001 from rfl, List.replicate_add]
      rw [laco_sem_flush (fun k => if k == 1 then some 0 else none) false ["a"] ["a"] []
        999 linhaC1 (List.replicate 1001 linhaC1) _ (by decide) (by decide)]
      rw [show (1001 : Nat) = 1 + (1 + 999) from rfl, List.replicate_add,
        List.replicate_add]
      rfl
    have hpasso1b : passoLote (fun k => if k == 1 then some 0 else none) false
        ["a"] ["a"] [] false
        { valores := [] ++ List.replicate 999 linhaC1, pendentes := [],
          inseridos := 0, erros := 0, lote := 0 } linhaC1 =
        { valores := [],
          pendentes := executarLote false ["a"] ["a"] []
            [] (([] ++ List.replicate 999 linhaC1) ++ [linhaC1]),
          inseridos := 0 + (([] ++ List.replicate 999 linhaC1) ++ [linhaC1]).length,
          erros := 0, lote := 1 } := by
      rw [passoLote_flush_sucesso _ _ _ _ _ _ _ _ (hcond1000 false) rfl]
    have hst2b : lacoRegistros (fun k => if k == 1 then some 0 else none) false
        ["a"] ["a"] [] (linhaC1 :: List.replicate 999 linhaC1)
        { valores := [],
          pendentes := executarLote false ["a"] ["a"] []
            [] (([] ++ List.replicate 999 linhaC1) ++ [linhaC1]),
          inseridos := 0 + (([] ++ List.replicate 999 linhaC1) ++ [linhaC1]).length,
          erros := 0, lote := 1 } =
        lacoRegistros (fun k => if k == 1 then some 0 else none) false
        ["a"] ["a"] [] [linhaC1]
        { valores := [] ++ List.replicate 999 linhaC1,
          pendentes := executarLote false ["a"] ["a"] []
            [] (([] ++ List.replicate 999 linhaC1) ++ [linhaC1]),
          inseridos := 0 + (([] ++ List.replicate 999 linhaC1) ++ [linhaC1]).length,
          erros := 0, lote := 1 } := by
      rw [show linhaC1 :: List.replicate 999 linhaC1
            = List.replicate 999 linhaC1 ++ List.replicate 1 linhaC1 by
          rw [← List.replicate_add, ← List.replicate_succ]]
      rw [laco_sem_flush (fun k => if k == 1 then some 0 else none) false ["a"] ["a"] []
        999 linhaC1 (List.replicate 1 linhaC1) _ (by decide) (by decide)]
      rfl
    have hpasso2b : passoLote (fun k => if k == 1 then some 0 else none) false
        ["a"] ["a"] [] true
        { valores := [] ++ List.replicate 999 linhaC1,
          pendentes := executarLote false ["a"] ["a"] []
            [] (([] ++ List.replicate 999 linhaC1) ++ [linhaC1]),
          inseridos := 0 + (([] ++ List.replicate 999 linhaC1) ++ [linhaC1]).length,
          erros := 0, lote := 1 } linhaC1 =
        { valores := ([] ++ List.replicate 999 linhaC1) ++ [linhaC1],
          pendentes := executarLote false ["a"] ["a"] []
            (executarLote false ["a"] ["a"] []
              [] (([] ++ List.replicate 999 linhaC1) ++ [linhaC1]))
            ((([] ++ List.replicate 999 linhaC1) ++ [linhaC1]).take 0),
          inseridos := 0 + (([] ++ List.replicate 999 linhaC1) ++ [linhaC1]).length,
          erros := 1, lote := 2 } := by
      rw [passoLote_flush_falha _ _ _ _ _ _ _ _ 0 (hcond1000 true) rfl]
    have hfim : lacoRegistros (fun k => if k == 1 then some 0 else none) false
        ["a"] ["a"] [] (List.replicate 2000 linhaC1)
        { valores := [], pendentes := [], inseridos := 0, erros := 0, lote := 0 } =
        { valores := ([] ++ List.replicate 999 linhaC1) ++ [linhaC1],
          pendentes := executarLote false ["a"] ["a"] []
            (executarLote false ["a"] ["a"] []
              [] (([] ++ List.replicate 999 linhaC1) ++ [linhaC1]))
            ((([] ++ List.replicate 999 linhaC1) ++ [linhaC1]).take 0),
          inseridos := 0 + (([] ++ List.replicate 999 linhaC1) ++ [linhaC1]).length,
          erros := 1, lote := 2 } := by
      rw [hst1b, lacoRegistros, hpasso1b, hst2b, lacoRegistros, hpasso2b]
    refine ⟨?_, ?_, by omega⟩
    · rw [show (2000 : Nat) = 1999 + 1 from rfl, inserir_dados_teste_contagem,
        show (1999 : Nat) + 1 = 2000 from rfl]
      rw [hfim]
      simp
    · rw [show (2000 : Nat) = 1999 + 1 from rfl, inserir_dados_teste_tabela,
        show (1999 : Nat) + 1 = 2000 from rfl]
      rw [hfim, hproj]
      dsimp only
      rw [executarLote_simples, executarLote_simples]
      simp only [Option.some.injEq, List.length_append, List.length_map, List.length_take,
        List.length_nil, List.length_cons, List.length_replicate, List.nil_append]
      omega

/-- C1 witness for the amended theorem: a call with no failing batch on a
one-column table appends exactly what it reports. -/
theorem c1_insercao_corrigida_witness :
    ∃ novas : List Linha,
      (List.lookup "teste" (inserir_dados (fun _ => none) [("teste", tabelaC1)] "teste"
          [[("a", SqlVal.s "x")]]).1).map Tabela.linhas =
        some (tabelaC1.linhas ++ novas) ∧
      (inserir_dados (fun _ => none) [("teste", tabelaC1)] "teste"
          [[("a", SqlVal.s "x")]]).2 ≤ novas.length ∧
      ((∀ k, (fun _ : Nat => none) k = (none : Option Nat)) →
        novas.length = (inserir_dados (fun _ => none) [("teste", tabelaC1)] "teste"
          [[("a", SqlVal.s "x")]]).2) :=
  c1_insercao_corrigida (fun _ => none) [("teste", tabelaC1)] "teste"
    [[("a", SqlVal.s "x")]] tabelaC1 rfl (by decide)

/-! ## C3: upsert idempotence infrastructure -/

/-- The `UNIQUE`-key tuple of a row: its values on the unique columns. -/
def chave (unicas : List String) (row : Linha) : List (Option SqlVal) :=
  unicas.map (fun c => List.lookup c row)

/-- A row or record carrying a non-NULL value for every unique column. -/
def chaveCompleta (unicas : List String) (lin : Linha) : Prop :=
  ∀ x ∈ unicas, ∃ v, List.lookup x lin = some v ∧ v ≠ SqlVal.null

theorem lookup_map_self (f : String → SqlVal) :
    ∀ (l : List String) (x : String),
      List.lookup x (l.map (fun c => (c, f c))) = if x ∈ l then some (f x) else none := by
  intro l
  induction l with
  | nil => intro x; simp
  | cons c resto ih =>
    intro x
    by_cases h : x = c
    · subst h
      simp [List.lookup]
    · have hb : (x == c) = false := beq_eq_false_iff_ne.mpr h
      simp [List.lookup, hb, ih x, h]

theorem lookup_expandir (ct : List String) (lin : Linha) (x : String) :
    List.lookup x (expandirLinha ct lin) =
      if x ∈ ct then some ((List.lookup x lin).getD SqlVal.null) else none := by
  unfold expandirLinha
  exact lookup_map_self (fun c => (List.lookup c lin).getD SqlVal.null) ct x

theorem chave_expandir (u ct : List String) (lin : Linha)
    (hsub : ∀ x ∈ u, x ∈ ct) (hcc : chaveCompleta u lin) :
    chave u (expandirLinha ct lin) = chave u lin := by
  unfold chave
  apply List.map_congr_left
  intro x hx
  obtain ⟨v, hv, _⟩ := hcc x hx
  rw [lookup_expandir, if_pos (hsub x hx), hv]
  rfl

theorem lookup_map_kv (f : String → SqlVal → SqlVal) :
    ∀ (row : Linha) (x : String),
      List.lookup x (row.map (fun kv => (kv.1, f kv.1 kv.2))) =
        (List.lookup x row).map (f x) := by
  intro row
  induction row with
  | nil => intro x; simp
  | cons kv resto ih =>
    intro x
    by_cases h : x = kv.1
    · subst h
      simp [List.lookup]
    · have hb : (x == kv.1) = false := beq_eq_false_iff_ne.mpr h
      simp [List.lookup, hb, ih x]

theorem atualizar_eq_map (c : List String) (lin row : Linha) :
    atualizarLinha c lin row = row.map (fun kv =>
      (kv.1, if kv.1 ∈ c ∧ kv.1 ≠ "id" then (List.lookup kv.1 lin).getD kv.2 else kv.2)) := by
  unfold atualizarLinha
  apply List.map_congr_left
  intro kv _
  by_cases h : kv.1 ∈ c ∧ kv.1 ≠ "id"
  · rw [if_pos (by simpa using h), if_pos h]
  · rw [if_neg (by simpa using h), if_neg h]

theorem lookup_atualizar (c : List String) (lin row : Linha) (x : String) :
    List.lookup x (atualizarLinha c lin row) =
      (List.lookup x row).map (fun w =>
        if x ∈ c ∧ x ≠ "id" then (List.lookup x lin).getD w else w) := by
  rw [atualizar_eq_map]
  exact lookup_map_kv (fun k w => if k ∈ c ∧ k ≠ "id" then (List.lookup k lin).getD w else w) row x

theorem all_congruencia {p q : String → Bool} :
    ∀ l : List String, (∀ x ∈ l, p x = q x) → l.all p = l.all q := by
  intro l
  induction l with
  | nil => intro _; rfl
  | cons a resto ih =>
    intro h
    simp only [List.all_cons]
    rw [h a (by simp), ih (fun x hx => h x (by simp [hx]))]

/-- A record that supplies no explicit `id` can only conflict through
the declared `UNIQUE` columns: the primary-key arm of the targetless
`ON CONFLICT` never fires for it. -/
theorem conflita_sem_id (u : List String) (lin row : Linha)
    (hid : List.lookup "id" lin = none) :
    conflita u lin row = (!u.isEmpty && u.all (fun c =>
      match List.lookup c row, List.lookup c lin with
      | some a, some b => a == b && !(a == SqlVal.null)
      | _, _ => false)) := by
  unfold conflita
  rw [hid]
  cases List.lookup "id" row <;> rfl

theorem conflita_facts {u : List String} {lin row : Linha}
    (hid : List.lookup "id" lin = none)
    (h : conflita u lin row = true) :
    ∀ x ∈ u, ∃ a, List.lookup x row = some a ∧ List.lookup x lin = some a ∧
      a ≠ SqlVal.null := by
  intro x hx
  rw [conflita_sem_id u lin row hid] at h
  rw [Bool.and_eq_true, List.all_eq_true] at h
  have hx2 := h.2 x hx
  cases hrow : List.lookup x row with
  | none => rw [hrow] at hx2; simp at hx2
  | some a =>
    cases hlin : List.lookup x lin with
    | none => rw [hrow, hlin] at hx2; simp at hx2
    | some b =>
      rw [hrow, hlin] at hx2
      simp only [Bool.and_eq_true, beq_iff_eq, Bool.not_eq_true] at hx2
      obtain ⟨hab, hnull⟩ := hx2
      subst hab
      refine ⟨a, rfl, rfl, ?_⟩
      intro he
      subst he
      simp at hnull

theorem conflita_iff_chave {u : List String} {lin row : Linha}
    (hne : u ≠ []) (hcc : chaveCompleta u lin)
    (hid : List.lookup "id" lin = none) :
    conflita u lin row = true ↔ chave u row = chave u lin := by
  constructor
  · intro h
    unfold chave
    apply List.map_congr_left
    intro x hx
    obtain ⟨a, h1, h2, _⟩ := conflita_facts hid h x hx
    rw [h1, h2]
  · intro h
    rw [conflita_sem_id u lin row hid]
    rw [Bool.and_eq_true]
    constructor
    · simpa [List.isEmpty_eq_true] using hne
    · rw [List.all_eq_true]
      intro x hx
      have hpt : List.lookup x row = List.lookup x lin :=
        List.map_eq_map_iff.mp h x hx
      obtain ⟨v, hv, hnn⟩ := hcc x hx
      rw [hpt, hv]
      simp only [beq_self_eq_true, Bool.true_and]
      rw [Bool.not_eq_true', beq_eq_false_iff_ne]
      exact hnn

theorem conflita_congr {u : List String} {r1 r2 : Linha} (lin : Linha)
    (hid : List.lookup "id" lin = none)
    (h : chave u r1 = chave u r2) :
    conflita u lin r1 = conflita u lin r2 := by
  rw [conflita_sem_id u lin r1 hid, conflita_sem_id u lin r2 hid]
  congr 1
  apply all_congruencia
  intro x hx
  have hpt : List.lookup x r1 = List.lookup x r2 := List.map_eq_map_iff.mp h x hx
  rw [hpt]

theorem chave_atualizar {u : List String} (c : List String) {lin row : Linha}
    (hid : List.lookup "id" lin = none)
    (hconf : conflita u lin row = true) :
    chave u (atualizarLinha c lin row) = chave u row := by
  unfold chave
  apply List.map_congr_left
  intro x hx
  obtain ⟨a, h1, h2, _⟩ := conflita_facts hid hconf x hx
  rw [lookup_atualizar, h1, h2]
  by_cases hc : x ∈ c ∧ x ≠ "id"
  · simp [hc]
  · simp [hc]

theorem upsert_atualiza {u : List String} (ct c : List String) {lin : Linha}
    (hid : List.lookup "id" lin = none) :
    ∀ T : List Linha, (∃ row ∈ T, conflita u lin row = true) →
      (upsertLinha ct c u lin T).map (chave u) = T.map (chave u) ∧
      (upsertLinha ct c u lin T).length = T.length := by
  intro T
  induction T with
  | nil =>
    rintro ⟨row, h, _⟩
    simp at h
  | cons r resto ih =>
    rintro ⟨row, hmem, hconf⟩
    rw [upsertLinha]
    by_cases hr : conflita u lin r = true
    · rw [if_pos hr]
      simp only [List.map_cons, List.length_cons]
      rw [chave_atualizar c hid hr]
      exact ⟨rfl, trivial⟩
    · rw [if_neg hr]
      have hrow : row ∈ resto := by
        rcases List.mem_cons.mp hmem with he | h2
        · subst he
          exact absurd hconf hr
        · exact h2
      obtain ⟨h1, h2⟩ := ih ⟨row, hrow, hconf⟩
      simp only [List.map_cons, List.length_cons, h1, h2]
      exact ⟨trivial, trivial⟩

theorem upsert_insere {u : List String} (ct c : List String) {lin : Linha} :
    ∀ T : List Linha, (∀ row ∈ T, conflita u lin row = false) →
      upsertLinha ct c u lin T = T ++ [expandirLinha ct lin] := by
  intro T
  induction T with
  | nil => intro _; rfl
  | cons r resto ih =>
    intro h
    rw [upsertLinha]
    rw [if_neg (by rw [h r (by simp)]; exact Bool.false_ne_true)]
    rw [ih (fun row hr => h row (by simp [hr]))]
    rfl

theorem upsert_mem_preserva {u : List String} (ct c : List String) {lin row : Linha} :
    ∀ T : List Linha, row ∈ T → conflita u lin row = false →
      row ∈ upsertLinha ct c u lin T := by
  intro T
  induction T with
  | nil => intro h _; simp at h
  | cons r resto ih =>
    intro hmem hconf
    rw [upsertLinha]
    by_cases hr : conflita u lin r = true
    · rw [if_pos hr]
      rcases List.mem_cons.mp hmem with he | h2
      · subst he
        rw [hconf] at hr
        exact absurd hr Bool.false_ne_true
      · exact List.mem_cons_of_mem _ h2
    · rw [if_neg hr]
      rcases List.mem_cons.mp hmem with he | h2
      · subst he
        exact List.mem_cons_self _ _
      · exact List.mem_cons_of_mem _ (ih h2 hconf)

theorem upsert_mem_atualizado {u : List String} (ct c : List String) {lin : Linha} :
    ∀ T : List Linha, (∃ row ∈ T, conflita u lin row = true) →
      ∃ row ∈ T, conflita u lin row = true ∧
        atualizarLinha c lin row ∈ upsertLinha ct c u lin T := by
  intro T
  induction T with
  | nil =>
    rintro ⟨row, h, _⟩
    simp at h
  | cons r resto ih =>
    rintro ⟨row, hmem, hconf⟩
    rw [upsertLinha]
    by_cases hr : conflita u lin r = true
    · rw [if_pos hr]
      exact ⟨r, List.mem_cons_self _ _, hr, List.mem_cons_self _ _⟩
    · rw [if_neg hr]
      have hrow : row ∈ resto := by
        rcases List.mem_cons.mp hmem with he | h2
        · subst he
          exact absurd hconf hr
        · exact h2
      obtain ⟨row2, hm2, hc2, hup2⟩ := ih ⟨row, hrow, hconf⟩
      exact ⟨row2, List.mem_cons_of_mem _ hm2, hc2, List.mem_cons_of_mem _ hup2⟩

theorem upsert_chave_mem {u : List String} (ct c : List String) {lin : Linha}
    (hne : u ≠ []) (hsub : ∀ x ∈ u, x ∈ ct) (hcc : chaveCompleta u lin)
    (hid : List.lookup "id" lin = none) (T : List Linha) :
    chave u lin ∈ (upsertLinha ct c u lin T).map (chave u) := by
  by_cases hex : ∃ row ∈ T, conflita u lin row = true
  · obtain ⟨row, hm, hc⟩ := hex
    rw [(upsert_atualiza ct c hid T ⟨row, hm, hc⟩).1]
    exact List.mem_map.mpr ⟨row, hm, (conflita_iff_chave hne hcc hid).mp hc⟩
  · have hall : ∀ row ∈ T, conflita u lin row = false := by
      intro row hr
      by_contra hno
      exact hex ⟨row, hr, Bool.of_not_eq_false hno⟩
    rw [upsert_insere ct c T hall, List.map_append]
    apply List.mem_append.mpr
    right
    simp [chave_expandir u ct lin hsub hcc]

theorem upsert_chave_mono {u : List String} (ct c : List String) {lin : Linha}
    (hid : List.lookup "id" lin = none)
    (k : List (Option SqlVal)) (T : List Linha)
    (hk : k ∈ T.map (chave u)) : k ∈ (upsertLinha ct c u lin T).map (chave u) := by
  by_cases hex : ∃ row ∈ T, conflita u lin row = true
  · rw [(upsert_atualiza ct c hid T hex).1]
    exact hk
  · have hall : ∀ row ∈ T, conflita u lin row = false := by
      intro row hr
      by_contra hno
      exact hex ⟨row, hr, Bool.of_not_eq_false hno⟩
    rw [upsert_insere ct c T hall, List.map_append]
    exact List.mem_append.mpr (Or.inl hk)

theorem lote_upsert_cons (ct c u : List String) (T : List Linha) (l : Linha)
    (ls : List Linha) :
    executarLote true ct c u T (l :: ls) =
      executarLote true ct c u (upsertLinha ct c u l T) ls := by
  simp [executarLote]

theorem lote_chave_mono {u : List String} (ct c : List String)
    (k : List (Option SqlVal)) :
    ∀ (ls : List Linha) (T : List Linha),
      (∀ l ∈ ls, List.lookup "id" l = none) → k ∈ T.map (chave u) →
      k ∈ (executarLote true ct c u T ls).map (chave u) := by
  intro ls
  induction ls with
  | nil => intro T _ hk; simpa [executarLote] using hk
  | cons l resto ih =>
    intro T hids hk
    rw [lote_upsert_cons]
    exact ih _ (fun x hx => hids x (List.mem_cons_of_mem _ hx))
      (upsert_chave_mono ct c (hids l (List.mem_cons_self _ _)) k T hk)

theorem lote_chave_mem {u : List String} (ct c : List String)
    (hne : u ≠ []) (hsub : ∀ x ∈ u, x ∈ ct) :
    ∀ (ls : List Linha) (T : List Linha), (∀ l ∈ ls, chaveCompleta u l) →
      (∀ l ∈ ls, List.lookup "id" l = none) →
      ∀ lin ∈ ls, chave u lin ∈ (executarLote true ct c u T ls).map (chave u) := by
  intro ls
  induction ls with
  | nil => intro T _ _ lin h; simp at h
  | cons l0 resto ih =>
    intro T hcc hids lin hmem
    rw [lote_upsert_cons]
    rcases List.mem_cons.mp hmem with he | hm
    · subst he
      exact lote_chave_mono ct c _ resto _
        (fun x hx => hids x (List.mem_cons_of_mem _ hx))
        (upsert_chave_mem ct c hne hsub (hcc lin (List.mem_cons_self _ _))
          (hids lin (List.mem_cons_self _ _)) T)
    · exact ih _ (fun x hx => hcc x (List.mem_cons_of_mem _ hx))
        (fun x hx => hids x (List.mem_cons_of_mem _ hx)) lin hm

theorem lote_segunda_passagem {u : List String} (ct c : List String) (hne : u ≠ []) :
    ∀ (ls : List Linha) (T : List Linha),
      (∀ l ∈ ls, chaveCompleta u l ∧ chave u l ∈ T.map (chave u)) →
      (∀ l ∈ ls, List.lookup "id" l = none) →
      (executarLote true ct c u T ls).map (chave u) = T.map (chave u) := by
  intro ls
  induction ls with
  | nil => intro T _ _; simp [executarLote]
  | cons l0 resto ih =>
    intro T h hids
    obtain ⟨hcc0, hk0⟩ := h l0 (List.mem_cons_self _ _)
    obtain ⟨row, hrow, hkeq⟩ := List.mem_map.mp hk0
    have hconf : conflita u l0 row = true :=
      (conflita_iff_chave hne hcc0 (hids l0 (List.mem_cons_self _ _))).mpr hkeq
    have hup := upsert_atualiza ct c (hids l0 (List.mem_cons_self _ _)) T ⟨row, hrow, hconf⟩
    rw [lote_upsert_cons, ih _ ?_ (fun x hx => hids x (List.mem_cons_of_mem _ hx)), hup.1]
    intro l hl
    obtain ⟨hccl, hkl⟩ := h l (List.mem_cons_of_mem _ hl)
    exact ⟨hccl, by rw [hup.1]; exact hkl⟩

theorem lote_mem_preserva {u : List String} (ct c : List String) {row : Linha} :
    ∀ (ls : List Linha) (T : List Linha), row ∈ T →
      (∀ l ∈ ls, conflita u l row = false) →
      row ∈ executarLote true ct c u T ls := by
  intro ls
  induction ls with
  | nil => intro T hm _; simpa [executarLote] using hm
  | cons l0 resto ih =>
    intro T hm h
    rw [lote_upsert_cons]
    exact ih _ (upsert_mem_preserva ct c T hm (h l0 (List.mem_cons_self _ _)))
      (fun l hl => h l (List.mem_cons_of_mem _ hl))

/-- Every declared column is present on the row, as on any SQLite row. -/
def linhaTotal (ct : List String) (row : Linha) : Prop :=
  ∀ x ∈ ct, (List.lookup x row).isSome = true

theorem total_atualizar (ct c : List String) (lin row : Linha)
    (h : linhaTotal ct row) : linhaTotal ct (atualizarLinha c lin row) := by
  intro x hx
  rw [lookup_atualizar]
  cases hr : List.lookup x row with
  | none =>
    have h2 := h x hx
    rw [hr] at h2
    simp at h2
  | some w => rfl

theorem total_expandir (ct : List String) (lin : Linha) :
    linhaTotal ct (expandirLinha ct lin) := by
  intro x hx
  rw [lookup_expandir, if_pos hx]
  rfl

theorem total_upsert {u : List String} (ct c : List String) (lin : Linha) :
    ∀ T : List Linha, (∀ row ∈ T, linhaTotal ct row) →
      ∀ r ∈ upsertLinha ct c u lin T, linhaTotal ct r := by
  intro T
  induction T with
  | nil =>
    intro _ r hr
    rw [upsertLinha] at hr
    rcases List.mem_singleton.mp hr with rfl
    exact total_expandir ct lin
  | cons r0 resto ih =>
    intro h r hr
    rw [upsertLinha] at hr
    by_cases hc : conflita u lin r0 = true
    · rw [if_pos hc] at hr
      rcases List.mem_cons.mp hr with rfl | h2
      · exact total_atualizar ct c lin r0 (h r0 (List.mem_cons_self _ _))
      · exact h r (List.mem_cons_of_mem _ h2)
    · rw [if_neg hc] at hr
      rcases List.mem_cons.mp hr with rfl | h2
      · exact h r (List.mem_cons_self _ _)
      · exact ih (fun row hm => h row (List.mem_cons_of_mem _ hm)) r h2

theorem total_lote {u : List String} (ct c : List String) :
    ∀ (ls : List Linha) (T : List Linha), (∀ row ∈ T, linhaTotal ct row) →
      ∀ r ∈ executarLote true ct c u T ls, linhaTotal ct r := by
  intro ls
  induction ls with
  | nil =>
    intro T h r hr
    simp only [executarLote, if_pos, List.foldl_nil] at hr
    exact h r hr
  | cons l0 resto ih =>
    intro T h r hr
    rw [lote_upsert_cons] at hr
    exact ih _ (total_upsert ct c l0 T h) r hr

theorem valores_atualizar (c : List String) (lin row : Linha) (x : String)
    (hx : x ∈ c) (hxid : x ≠ "id")
    (hlin : (List.lookup x lin).isSome = true)
    (hrow : (List.lookup x row).isSome = true) :
    List.lookup x (atualizarLinha c lin row) = List.lookup x lin := by
  rw [lookup_atualizar]
  obtain ⟨w, hw⟩ := Option.isSome_iff_exists.mp hrow
  obtain ⟨v, hv⟩ := Option.isSome_iff_exists.mp hlin
  rw [hw, hv]
  simp [hx, hxid]

theorem valores_expandir (ct c : List String) (lin : Linha) (x : String)
    (hxct : x ∈ ct) (hlin : (List.lookup x lin).isSome = true) :
    List.lookup x (expandirLinha ct lin) = List.lookup x lin := by
  rw [lookup_expandir, if_pos hxct]
  obtain ⟨v, hv⟩ := Option.isSome_iff_exists.mp hlin
  rw [hv]
  rfl

/-- The last record carrying a given `UNIQUE` key (here: keys pairwise
distinct over the batch) determines the stored row: after the batch, a
row with that key holds exactly the record's values on the supplied
non-`id` columns. -/
theorem lote_ultima_gravacao {u : List String} (ct c : List String)
    (hne : u ≠ []) (hsubu : ∀ x ∈ u, x ∈ ct) (hsubc : ∀ x ∈ c, x ∈ ct) :
    ∀ (ls : List Linha) (T : List Linha) (lin : Linha),
      lin ∈ ls →
      (∀ l ∈ ls, chaveCompleta u l) →
      (∀ l ∈ ls, List.lookup "id" l = none) →
      (∀ l ∈ ls, ∀ x ∈ c, (List.lookup x l).isSome = true) →
      ls.Pairwise (fun a b => chave u a ≠ chave u b) →
      (∀ row ∈ T, linhaTotal ct row) →
      ∃ row ∈ executarLote true ct c u T ls,
        chave u row = chave u lin ∧
        ∀ x ∈ c, x ≠ "id" → List.lookup x row = List.lookup x lin := by
  intro ls
  induction ls with
  | nil =>
    intro T lin h
    simp at h
  | cons l0 resto ih =>
    intro T lin hmem hcc hids hctot hpair htot
    obtain ⟨hpair0, hpairresto⟩ := List.pairwise_cons.mp hpair
    rw [lote_upsert_cons]
    rcases List.mem_cons.mp hmem with he | hm
    · subst he
      have hcclin : chaveCompleta u lin := hcc lin (List.mem_cons_self _ _)
      have hidlin : List.lookup "id" lin = none := hids lin (List.mem_cons_self _ _)
      by_cases hex : ∃ row ∈ T, conflita u lin row = true
      · obtain ⟨row0, hm0, hc0, hup⟩ := upsert_mem_atualizado ct c T hex
        have hk1 : chave u (atualizarLinha c lin row0) = chave u row0 :=
          chave_atualizar c hidlin hc0
        have hk2 : chave u row0 = chave u lin :=
          (conflita_iff_chave hne hcclin hidlin).mp hc0
        refine ⟨atualizarLinha c lin row0, ?_, by rw [hk1, hk2], ?_⟩
        · apply lote_mem_preserva ct c resto _ hup
          intro l hl
          by_contra hcf
          have hcf2 : conflita u l (atualizarLinha c lin row0) = true :=
            Bool.of_not_eq_false hcf
          have hk3 : chave u (atualizarLinha c lin row0) = chave u l :=
            (conflita_iff_chave hne (hcc l (List.mem_cons_of_mem _ hl))
              (hids l (List.mem_cons_of_mem _ hl))).mp hcf2
          exact hpair0 l hl (by rw [← hk3, hk1, hk2])
        · intro x hx hxid
          exact valores_atualizar c lin row0 x hx hxid
            (hctot lin (List.mem_cons_self _ _) x hx)
            (htot row0 hm0 x (hsubc x hx))
      · have hall : ∀ row ∈ T, conflita u lin row = false := by
          intro row hr
          by_contra hno
          exact hex ⟨row, hr, Bool.of_not_eq_false hno⟩
        rw [upsert_insere ct c T hall]
        have hkexp : chave u (expandirLinha ct lin) = chave u lin :=
          chave_expandir u ct lin hsubu hcclin
        refine ⟨expandirLinha ct lin, ?_, hkexp, ?_⟩
        · apply lote_mem_preserva ct c resto _
            (List.mem_append.mpr (Or.inr (List.mem_singleton.mpr rfl)))
          intro l hl
          by_contra hcf
          have hcf2 : conflita u l (expandirLinha ct lin) = true :=
            Bool.of_not_eq_false hcf
          have hk3 : chave u (expandirLinha ct lin) = chave u l :=
            (conflita_iff_chave hne (hcc l (List.mem_cons_of_mem _ hl))
              (hids l (List.mem_cons_of_mem _ hl))).mp hcf2
          exact hpair0 l hl (by rw [← hk3, hkexp])
        · intro x hx hxid
          exact valores_expandir ct c lin x (hsubc x hx)
            (hctot lin (List.mem_cons_self _ _) x hx)
    · exact ih _ lin hm (fun l hl => hcc l (List.mem_cons_of_mem _ hl))
        (fun l hl => hids l (List.mem_cons_of_mem _ hl))
        (fun l hl => hctot l (List.mem_cons_of_mem _ hl)) hpairresto
        (total_upsert ct c l0 T htot)

theorem executarLote_comp (up : Bool) (ct c u : List String) (P A B : List Linha) :
    executarLote up ct c u (executarLote up ct c u P A) B =
      executarLote up ct c u P (A ++ B) := by
  cases up with
  | true => simp [executarLote, List.foldl_append]
  | false => simp [executarLote, List.map_append, List.append_assoc]

/-- With no `executemany` failure the loop is one pass of the batch
operation over every record, and the count is the record total. -/
theorem laco_sem_falha (up : Bool) (ct c u : List String) :
    ∀ (linhas : List Linha) (st : EstadoInsercao), linhas ≠ [] →
      (lacoRegistros (fun _ => none) up ct c u linhas st).pendentes =
        executarLote up ct c u st.pendentes (st.valores ++ linhas) ∧
      (lacoRegistros (fun _ => none) up ct c u linhas st).inseridos =
        st.inseridos + (st.valores ++ linhas).length := by
  intro linhas
  induction linhas with
  | nil => intro st h; exact absurd rfl h
  | cons lin resto ih =>
    intro st _
    cases resto with
    | nil =>
      rw [lacoRegistros]
      rw [passoLote_flush_sucesso _ _ _ _ _ _ _ _ (by rw [Bool.or_true]) rfl]
      exact ⟨rfl, rfl⟩
    | cons y ys =>
      rw [lacoRegistros]
      by_cases hflush : (decide ((st.valores ++ [lin]).length ≥ 1000) || false) = true
      · rw [passoLote_flush_sucesso _ _ _ _ _ _ _ _ hflush rfl]
        obtain ⟨h1, h2⟩ := ih
          { st with
            valores := [],
            pendentes := executarLote up ct c u st.pendentes (st.valores ++ [lin]),
            inseridos := st.inseridos + (st.valores ++ [lin]).length,
            lote := st.lote + 1 } (by simp)
        constructor
        · rw [h1]
          show executarLote up ct c u (executarLote up ct c u st.pendentes
            (st.valores ++ [lin])) ([] ++ y :: ys) = _
          rw [executarLote_comp]
          congr 1
          simp
        · rw [h2]
          show st.inseridos + (st.valores ++ [lin]).length + ([] ++ y :: ys).length = _
          simp only [List.length_append, List.length_cons, List.length_nil,
            List.nil_append]
          omega
      · have hlt : (st.valores ++ [lin]).length < 1000 := by
          simp only [Bool.or_false, decide_eq_true_eq] at hflush
          omega
        rw [passoLote_sem_flush _ _ _ _ _ _ _ hlt]
        obtain ⟨h1, h2⟩ := ih { st with valores := st.valores ++ [lin] } (by simp)
        constructor
        · rw [h1]
          congr 1
          simp
        · rw [h2]
          simp only [List.length_append, List.length_cons, List.length_nil]
          omega

/-- The valid-input path of `inserir_dados` laid bare. -/
theorem inserir_dados_valido (falha : Nat → Option Nat) (banco : List (String × Tabela))
    (nome : String) (dados : List (List (String × SqlVal))) (tabela : Tabela)
    (htab : List.lookup nome banco = some tabela)
    (hd : dados.isEmpty = false)
    (hcols : (((dados.head?.getD []).map Prod.fst).all
      (fun c => (List.lookup c tabela.tipos).isSome)) = true) :
    inserir_dados falha banco nome dados =
      ((fun st => (banco.map (fun kv =>
          if kv.1 == nome then (kv.1, { tabela with linhas := st.pendentes }) else kv),
        st.inseridos))
        (lacoRegistros falha (temUnique tabela) (tabela.tipos.map Prod.fst)
          ((dados.head?.getD []).map Prod.fst) tabela.unicas
          (dados.map (converterRegistro tabela.tipos ((dados.head?.getD []).map Prod.fst)))
          { valores := [], pendentes := tabela.linhas, inseridos := 0,
            erros := 0, lote := 0 })) := by
  unfold inserir_dados
  simp only [hd, Bool.false_eq_true, if_false, htab, hcols, if_true]

theorem conv_total (tipos : List (String × String)) (colunas : List String)
    (reg : Linha) :
    ∀ x ∈ colunas, (List.lookup x (converterRegistro tipos colunas reg)).isSome = true := by
  intro x hx
  unfold converterRegistro
  rw [lookup_map_self, if_pos hx]
  rfl

theorem conv_sem_id (tipos : List (String × String)) (colunas : List String)
    (reg : Linha) (h : "id" ∉ colunas) :
    List.lookup "id" (converterRegistro tipos colunas reg) = none := by
  unfold converterRegistro
  rw [lookup_map_self, if_neg h]

theorem lookup_isSome_mem {β : Type} (x : String) :
    ∀ l : List (String × β), (List.lookup x l).isSome = true → x ∈ l.map Prod.fst := by
  intro l
  induction l with
  | nil => intro h; simp at h
  | cons kv resto ih =>
    intro h
    by_cases he : x = kv.1
    · subst he
      simp
    · have hb : (x == kv.1) = false := beq_eq_false_iff_ne.mpr he
      rw [List.lookup, hb] at h
      exact List.mem_cons_of_mem _ (ih h)

/-- Executable form of `chaveCompleta`. -/
def chaveCompletaB (u : List String) (lin : Linha) : Bool :=
  u.all fun x =>
    match List.lookup x lin with
    | some v => !(v == SqlVal.null)
    | none => false

theorem chaveCompletaB_correta {u : List String} {lin : Linha}
    (h : chaveCompletaB u lin = true) : chaveCompleta u lin := by
  intro x hx
  have h2 := List.all_eq_true.mp h x hx
  cases hl : List.lookup x lin with
  | none => rw [hl] at h2; simp at h2
  | some v =>
    rw [hl] at h2
    refine ⟨v, rfl, ?_⟩
    rw [Bool.not_eq_true'] at h2
    exact beq_eq_false_iff_ne.mp h2

theorem inserir_dados_valido_fst (falha : Nat → Option Nat) (banco : List (String × Tabela))
    (nome : String) (dados : List (List (String × SqlVal))) (tabela : Tabela)
    (htab : List.lookup nome banco = some tabela)
    (hd : dados.isEmpty = false)
    (hcols : (((dados.head?.getD []).map Prod.fst).all
      (fun c => (List.lookup c tabela.tipos).isSome)) = true) :
    (inserir_dados falha banco nome dados).1 = banco.map (fun kv =>
      if kv.1 == nome then
        (kv.1, { tabela with
          linhas := (lacoRegistros falha (temUnique tabela) (tabela.tipos.map Prod.fst)
            ((dados.head?.getD []).map Prod.fst) tabela.unicas
            (dados.map (converterRegistro tabela.tipos
              ((dados.head?.getD []).map Prod.fst)))
            { valores := [], pendentes := tabela.linhas, inseridos := 0,
              erros := 0, lote := 0 }).pendentes })
      else kv) := by
  rw [inserir_dados_valido falha banco nome dados tabela htab hd hcols]

theorem inserir_dados_valido_snd (falha : Nat → Option Nat) (banco : List (String × Tabela))
    (nome : String) (dados : List (List (String × SqlVal))) (tabela : Tabela)
    (htab : List.lookup nome banco = some tabela)
    (hd : dados.isEmpty = false)
    (hcols : (((dados.head?.getD []).map Prod.fst).all
      (fun c => (List.lookup c tabela.tipos).isSome)) = true) :
    (inserir_dados falha banco nome dados).2 =
      (lacoRegistros falha (temUnique tabela) (tabela.tipos.map Prod.fst)
        ((dados.head?.getD []).map Prod.fst) tabela.unicas
        (dados.map (converterRegistro tabela.tipos
          ((dados.head?.getD []).map Prod.fst)))
        { valores := [], pendentes := tabela.linhas, inseridos := 0,
          erros := 0, lote := 0 }).inseridos := by
  rw [inserir_dados_valido falha banco nome dados tabela htab hd hcols]

/-- C3 as amended: on a table whose creation SQL carries a `UNIQUE(`
constraint, re-ingesting the same records is idempotent *provided every
record supplies a non-NULL value for each unique column* (SQLite treats
NULLs as pairwise distinct, see the counterexample), the records'
key tuples are pairwise distinct, and no record supplies an explicit
`id` (the targetless `ON CONFLICT` also fires on the `id INTEGER
PRIMARY KEY`, so duplicate explicit ids would collapse records with
distinct unique keys into one row): the second call reports the same
count as the first, the table's row count does not change, and for
every record the stored row with its key holds exactly the record's
values on the supplied non-`id` columns — the second ingestion's
values. -/
theorem c3_upsert_idempotente_corrigida
    (banco : List (String × Tabela)) (nome : String)
    (dados : List (List (String × SqlVal))) (tabela : Tabela)
    (htab : List.lookup nome banco = some tabela)
    (huniq : temUnique tabela = true)
    (hne : tabela.unicas ≠ [])
    (hd : dados.isEmpty = false)
    (hcols : (((dados.head?.getD []).map Prod.fst).all
      (fun c => (List.lookup c tabela.tipos).isSome)) = true)
    (hid : "id" ∉ (dados.head?.getD []).map Prod.fst)
    (hsubu : ∀ x ∈ tabela.unicas, x ∈ tabela.tipos.map Prod.fst)
    (hcc : ∀ reg ∈ dados, chaveCompleta tabela.unicas
      (converterRegistro tabela.tipos ((dados.head?.getD []).map Prod.fst) reg))
    (hpair : (dados.map (converterRegistro tabela.tipos
        ((dados.head?.getD []).map Prod.fst))).Pairwise
      (fun a b => chave tabela.unicas a ≠ chave tabela.unicas b))
    (htotal : ∀ row ∈ tabela.linhas, linhaTotal (tabela.tipos.map Prod.fst) row) :
    ∃ L1 L2 : List Linha,
      (List.lookup nome (inserir_dados (fun _ => none) banco nome dados).1).map
        Tabela.linhas = some L1 ∧
      (List.lookup nome (inserir_dados (fun _ => none)
        (inserir_dados (fun _ => none) banco nome dados).1 nome dados).1).map
        Tabela.linhas = some L2 ∧
      L2.length = L1.length ∧
      (inserir_dados (fun _ => none) banco nome dados).2 = dados.length ∧
      (inserir_dados (fun _ => none)
        (inserir_dados (fun _ => none) banco nome dados).1 nome dados).2 = dados.length ∧
      ∀ reg ∈ dados, ∃ row ∈ L2,
        chave tabela.unicas row = chave tabela.unicas
          (converterRegistro tabela.tipos ((dados.head?.getD []).map Prod.fst) reg) ∧
        ∀ x ∈ (dados.head?.getD []).map Prod.fst, x ≠ "id" →
          List.lookup x row = List.lookup x
            (converterRegistro tabela.tipos ((dados.head?.getD []).map Prod.fst) reg) := by
  have hdne : dados ≠ [] := by
    intro he
    subst he
    simp at hd
  have hlinne : dados.map (converterRegistro tabela.tipos
      ((dados.head?.getD []).map Prod.fst)) ≠ [] := by
    intro he
    exact hdne (List.map_eq_nil_iff.mp he)
  have hccl : ∀ l ∈ dados.map (converterRegistro tabela.tipos
      ((dados.head?.getD []).map Prod.fst)), chaveCompleta tabela.unicas l := by
    intro l hl
    obtain ⟨reg, hreg, rfl⟩ := List.mem_map.mp hl
    exact hcc reg hreg
  have hidsl : ∀ l ∈ dados.map (converterRegistro tabela.tipos
      ((dados.head?.getD []).map Prod.fst)), List.lookup "id" l = none := by
    intro l hl
    obtain ⟨reg, hreg, rfl⟩ := List.mem_map.mp hl
    exact conv_sem_id tabela.tipos _ reg hid
  have hsubc : ∀ x ∈ (dados.head?.getD []).map Prod.fst, x ∈ tabela.tipos.map Prod.fst := by
    intro x hx
    exact lookup_isSome_mem x tabela.tipos (List.all_eq_true.mp hcols x hx)
  have hctot : ∀ l ∈ dados.map (converterRegistro tabela.tipos
      ((dados.head?.getD []).map Prod.fst)),
      ∀ x ∈ (dados.head?.getD []).map Prod.fst, (List.lookup x l).isSome = true := by
    intro l hl x hx
    obtain ⟨reg, hreg, rfl⟩ := List.mem_map.mp hl
    exact conv_total tabela.tipos _ reg x hx
  -- first call
  have h1fst := inserir_dados_valido_fst (fun _ => none) banco nome dados tabela htab hd hcols
  have h1snd := inserir_dados_valido_snd (fun _ => none) banco nome dados tabela htab hd hcols
  rw [huniq] at h1fst h1snd
  obtain ⟨hp1, hi1⟩ := laco_sem_falha true (tabela.tipos.map Prod.fst)
    ((dados.head?.getD []).map Prod.fst) tabela.unicas
    (dados.map (converterRegistro tabela.tipos ((dados.head?.getD []).map Prod.fst)))
    { valores := [], pendentes := tabela.linhas, inseridos := 0, erros := 0, lote := 0 }
    hlinne
  rw [hp1] at h1fst
  rw [hi1] at h1snd
  dsimp only at h1fst h1snd
  simp only [List.nil_append, Nat.zero_add, List.length_map] at h1fst h1snd
  have htab2 : List.lookup nome (inserir_dados (fun _ => none) banco nome dados).1 =
      some (comLinhas tabela (executarLote true (tabela.tipos.map Prod.fst)
        ((dados.head?.getD []).map Prod.fst) tabela.unicas tabela.linhas
        (dados.map (converterRegistro tabela.tipos ((dados.head?.getD []).map Prod.fst))))) := by
    rw [h1fst, lookup_substituir, htab]
    rfl
  have h2fst := inserir_dados_valido_fst (fun _ => none)
    (inserir_dados (fun _ => none) banco nome dados).1 nome dados _ htab2 hd hcols
  have h2snd := inserir_dados_valido_snd (fun _ => none)
    (inserir_dados (fun _ => none) banco nome dados).1 nome dados _ htab2 hd hcols
  have ht1uniq : temUnique (comLinhas tabela (executarLote true
      (tabela.tipos.map Prod.fst) ((dados.head?.getD []).map Prod.fst) tabela.unicas
      tabela.linhas (dados.map (converterRegistro tabela.tipos
        ((dados.head?.getD []).map Prod.fst))))) = true := huniq
  rw [ht1uniq] at h2fst h2snd
  dsimp only [comLinhas] at h2fst h2snd
  obtain ⟨hp2, hi2⟩ := laco_sem_falha true (tabela.tipos.map Prod.fst)
    ((dados.head?.getD []).map Prod.fst) tabela.unicas
    (dados.map (converterRegistro tabela.tipos ((dados.head?.getD []).map Prod.fst)))
    { valores := [],
      pendentes := executarLote true (tabela.tipos.map Prod.fst)
        ((dados.head?.getD []).map Prod.fst) tabela.unicas tabela.linhas
        (dados.map (converterRegistro tabela.tipos ((dados.head?.getD []).map Prod.fst))),
      inseridos := 0, erros := 0, lote := 0 } hlinne
  rw [hp2] at h2fst
  rw [hi2] at h2snd
  dsimp only at h2fst h2snd
  simp only [List.nil_append, Nat.zero_add, List.length_map] at h2fst h2snd
  have htab3 : List.lookup nome (inserir_dados (fun _ => none)
      (inserir_dados (fun _ => none) banco nome dados).1 nome dados).1 =
      some (comLinhas tabela (executarLote true (tabela.tipos.map Prod.fst)
        ((dados.head?.getD []).map Prod.fst) tabela.unicas
        (executarLote true (tabela.tipos.map Prod.fst)
          ((dados.head?.getD []).map Prod.fst) tabela.unicas tabela.linhas
          (dados.map (converterRegistro tabela.tipos ((dados.head?.getD []).map Prod.fst))))
        (dados.map (converterRegistro tabela.tipos ((dados.head?.getD []).map Prod.fst))))) := by
    rw [h2fst, lookup_substituir, htab2]
    rfl
  have hkeymem : ∀ l ∈ dados.map (converterRegistro tabela.tipos
      ((dados.head?.getD []).map Prod.fst)),
      chave tabela.unicas l ∈ (executarLote true (tabela.tipos.map Prod.fst)
        ((dados.head?.getD []).map Prod.fst) tabela.unicas tabela.linhas
        (dados.map (converterRegistro tabela.tipos
          ((dados.head?.getD []).map Prod.fst)))).map (chave tabela.unicas) :=
    fun l hl => lote_chave_mem (tabela.tipos.map Prod.fst)
      ((dados.head?.getD []).map Prod.fst) hne hsubu
      (dados.map (converterRegistro tabela.tipos ((dados.head?.getD []).map Prod.fst)))
      tabela.linhas hccl hidsl l hl
  have hsegunda := lote_segunda_passagem (tabela.tipos.map Prod.fst)
    ((dados.head?.getD []).map Prod.fst) hne
    (dados.map (converterRegistro tabela.tipos ((dados.head?.getD []).map Prod.fst)))
    (executarLote true (tabela.tipos.map Prod.fst)
      ((dados.head?.getD []).map Prod.fst) tabela.unicas tabela.linhas
      (dados.map (converterRegistro tabela.tipos ((dados.head?.getD []).map Prod.fst))))
    (fun l hl => ⟨hccl l hl, hkeymem l hl⟩) hidsl
  have hlen : (executarLote true (tabela.tipos.map Prod.fst)
      ((dados.head?.getD []).map Prod.fst) tabela.unicas
      (executarLote true (tabela.tipos.map Prod.fst)
        ((dados.head?.getD []).map Prod.fst) tabela.unicas tabela.linhas
        (dados.map (converterRegistro tabela.tipos ((dados.head?.getD []).map Prod.fst))))
      (dados.map (converterRegistro tabela.tipos
        ((dados.head?.getD []).map Prod.fst)))).length =
      (executarLote true (tabela.tipos.map Prod.fst)
        ((dados.head?.getD []).map Prod.fst) tabela.unicas tabela.linhas
        (dados.map (converterRegistro tabela.tipos
          ((dados.head?.getD []).map Prod.fst)))).length := by
    have h2 := congrArg List.length hsegunda
    simpa [List.length_map] using h2
  refine ⟨_, _, by rw [htab2]; rfl, by rw [htab3]; rfl, hlen, h1snd, h2snd, ?_⟩
  intro reg hreg
  exact lote_ultima_gravacao (tabela.tipos.map Prod.fst)
    ((dados.head?.getD []).map Prod.fst) hne hsubu hsubc
    (dados.map (converterRegistro tabela.tipos ((dados.head?.getD []).map Prod.fst)))
    (executarLote true (tabela.tipos.map Prod.fst)
      ((dados.head?.getD []).map Prod.fst) tabela.unicas tabela.linhas
      (dados.map (converterRegistro tabela.tipos ((dados.head?.getD []).map Prod.fst))))
    (converterRegistro tabela.tipos ((dados.head?.getD []).map Prod.fst) reg)
    (List.mem_map_of_mem _ hreg) hccl hidsl hctot hpair
    (total_lote (tabela.tipos.map Prod.fst) ((dados.head?.getD []).map Prod.fst)
      (dados.map (converterRegistro tabela.tipos ((dados.head?.getD []).map Prod.fst)))
      tabela.linhas htotal)

/-- The `esocial_s2206` table of `esquemas_tabelas.py` (lines 367-388),
the only schema whose creation SQL declares a `UNIQUE` constraint,
restricted to the columns the scenario touches. -/
def tabelaC3 : Tabela :=
  { sql := "CREATE TABLE IF NOT EXISTS esocial_s2206 (id INTEGER PRIMARY KEY AUTOINCREMENT, cpf_trabalhador TEXT, matricula TEXT, data_alteracao TEXT, cargo TEXT, UNIQUE(cpf_trabalhador, matricula, data_alteracao))",
    tipos := [("id", "INTEGER"), ("cpf_trabalhador", "TEXT"), ("matricula", "TEXT"), ("data_alteracao", "TEXT"), ("cargo", "TEXT")],
    unicas := ["cpf_trabalhador", "matricula", "data_alteracao"],
    linhas := [] }

/-- A record whose `cpf_trabalhador` is NULL (an S-2206 event missing
the worker CPF): SQLite treats NULLs as pairwise distinct in `UNIQUE`,
so `ON CONFLICT` never fires for it. -/
def registroC3 : List (String × SqlVal) :=
  [("cpf_trabalhador", SqlVal.null), ("matricula", SqlVal.s "M1"),
   ("data_alteracao", SqlVal.s "2024-01-01"), ("cargo", SqlVal.s "Analista")]

/-- A record with a non-NULL value on every unique column, for the
amended theorem's witness. -/
def registroC3W : List (String × SqlVal) :=
  [("cpf_trabalhador", SqlVal.s "12345678901"), ("matricula", SqlVal.s "M1"),
   ("data_alteracao", SqlVal.s "2024-01-01"), ("cargo", SqlVal.s "Analista")]

/-- Two records carrying the same explicit `id` but distinct unique-key
tuples: the targetless `ON CONFLICT` fires on the primary key and
collapses them into one stored row. -/
def registroC3id1 : List (String × SqlVal) :=
  [("id", SqlVal.i 7), ("cpf_trabalhador", SqlVal.s "111"),
   ("matricula", SqlVal.s "M1"), ("data_alteracao", SqlVal.s "2024-01-01")]

def registroC3id2 : List (String × SqlVal) :=
  [("id", SqlVal.i 7), ("cpf_trabalhador", SqlVal.s "222"),
   ("matricula", SqlVal.s "M2"), ("data_alteracao", SqlVal.s "2024-02-02")]

/-- C3 counterexample: the claim promises insert-or-update *keyed on
the unique columns*, for every table whose creation SQL declares a
uniqueness constraint and with no condition on the data.  Both halves
fail on `esocial_s2206` (`UNIQUE(cpf_trabalhador, matricula,
data_alteracao)`).  First, ingesting a single record whose
`cpf_trabalhador` is NULL twice leaves two stored rows, not one: SQLite
`UNIQUE` treats NULLs as pairwise distinct, so the `ON CONFLICT DO
UPDATE` clause of line 209 never fires.  Second, the upsert is not
keyed on the unique columns alone: the `ON CONFLICT` is targetless and
also fires on the `id INTEGER PRIMARY KEY`, so two records sharing an
explicit `id` but with entirely distinct unique-key tuples collapse
into one stored row. -/
theorem c3_contraexemplo_nulo :
    temUnique tabelaC3 = true ∧
    (List.lookup "esocial_s2206"
      (inserir_dados (fun _ => none) [("esocial_s2206", tabelaC3)]
        "esocial_s2206" [registroC3]).1).map (fun t => t.linhas.length) = some 1 ∧
    (List.lookup "esocial_s2206"
      (inserir_dados (fun _ => none)
        (inserir_dados (fun _ => none) [("esocial_s2206", tabelaC3)]
          "esocial_s2206" [registroC3]).1
        "esocial_s2206" [registroC3]).1).map (fun t => t.linhas.length) = some 2 ∧
    chave tabelaC3.unicas (converterRegistro tabelaC3.tipos
        (registroC3id1.map Prod.fst) registroC3id1) ≠
      chave tabelaC3.unicas (converterRegistro tabelaC3.tipos
        (registroC3id1.map Prod.fst) registroC3id2) ∧
    (List.lookup "esocial_s2206"
      (inserir_dados (fun _ => none) [("esocial_s2206", tabelaC3)]
        "esocial_s2206" [registroC3id1, registroC3id2]).1).map
      (fun t => t.linhas.length) = some 1 := by
  refine ⟨by decide, rfl, rfl, by decide, rfl⟩

/-- Witness for the amended C3: the concrete scenario with a non-NULL
key satisfies every hypothesis, and the conclusion follows by applying
the theorem there. -/
theorem c3_upsert_idempotente_corrigida_witness :
    ∃ L1 L2 : List Linha,
      (List.lookup "esocial_s2206"
        (inserir_dados (fun _ => none) [("esocial_s2206", tabelaC3)]
          "esocial_s2206" [registroC3W]).1).map Tabela.linhas = some L1 ∧
      (List.lookup "esocial_s2206"
        (inserir_dados (fun _ => none)
          (inserir_dados (fun _ => none) [("esocial_s2206", tabelaC3)]
            "esocial_s2206" [registroC3W]).1
          "esocial_s2206" [registroC3W]).1).map Tabela.linhas = some L2 ∧
      L2.length = L1.length ∧
      (inserir_dados (fun _ => none) [("esocial_s2206", tabelaC3)]
        "esocial_s2206" [registroC3W]).2 = [registroC3W].length ∧
      (inserir_dados (fun _ => none)
        (inserir_dados (fun _ => none) [("esocial_s2206", tabelaC3)]
          "esocial_s2206" [registroC3W]).1
        "esocial_s2206" [registroC3W]).2 = [registroC3W].length ∧
      ∀ reg ∈ [registroC3W], ∃ row ∈ L2,
        chave tabelaC3.unicas row = chave tabelaC3.unicas
          (converterRegistro tabelaC3.tipos
            (([registroC3W].head?.getD []).map Prod.fst) reg) ∧
        ∀ x ∈ ([registroC3W].head?.getD []).map Prod.fst, x ≠ "id" →
          List.lookup x row = List.lookup x
            (converterRegistro tabelaC3.tipos
              (([registroC3W].head?.getD []).map Prod.fst) reg) :=
  c3_upsert_idempotente_corrigida [("esocial_s2206", tabelaC3)] "esocial_s2206"
    [registroC3W] tabelaC3 rfl (by decide) (by decide) (by decide) (by decide)
    (by decide) (by decide)
    (by
      intro reg hreg
      have he : reg = registroC3W := by simpa using hreg
      subst he
      exact chaveCompletaB_correta (by decide))
    (by simp)
    (by intro row h; simp [tabelaC3] at h)

/-! ## Template writer and generic exporter
(src/src/exportadores/exportador_templates_empresa.py,
src/src/exportadores/exportador_generico.py) -/

/-- `ExportadorTemplatesEmpresa._criar_arquivo_vazio` (lines 1211-1230):
the file is always opened for writing; when `colunas` is non-empty the
single header row is written, otherwise the file stays empty.  A file's
content is its list of CSV rows. -/
def criar_arquivo_vazio (colunas : List String) : List (List String) :=
  if colunas.isEmpty then [] else [colunas]

/-- `ExportadorTemplatesEmpresa._salvar_template_csv` (lines 1122-1209):
empty `dados` is diverted to `_criar_arquivo_vazio` (lines 1135-1138);
otherwise the file is opened and, when `colunas` is non-empty, the
header plus one row per record is written, each cell produced from the
record by the per-cell display formatting (the date/number detection of
lines 1175-1190), abstracted here as `fmt`. -/
def salvar_template_csv (fmt : String → Registro → String)
    (colunas : List String) (dados : List Registro) : List (List String) :=
  if dados.isEmpty then criar_arquivo_vazio colunas
  else if colunas.isEmpty then []
  else colunas :: dados.map (fun reg => colunas.map (fun c => fmt c reg))

/-- `ExportadorGenerico.exportar_todos` (lines 40-78): for each
configured template, fetch its rows (`consulta`); `if not dados:
continue` (line 61) skips the template entirely — no file is written —
otherwise `_salvar_csv` creates the file and the success counter grows.
Returns the names of the files created and the reported count. -/
def exportar_todos (consulta : String → List Registro)
    (templates : List String) : List String × Nat :=
  templates.foldl (fun acc t =>
    if (consulta t).isEmpty then acc
    else (acc.1 ++ [t], acc.2 + 1)) ([], 0)

theorem exportar_todos_fold_inv (consulta : String → List Registro)
    (templates : List String) :
    ∀ (acc : List String × Nat),
      (∀ x ∈ acc.1, (consulta x).isEmpty = false) →
      ∀ x ∈ (templates.foldl (fun acc t =>
        if (consulta t).isEmpty then acc
        else (acc.1 ++ [t], acc.2 + 1)) acc).1, (consulta x).isEmpty = false := by
  induction templates with
  | nil => intro acc hacc x hx; exact hacc x hx
  | cons t resto ih =>
    intro acc hacc x hx
    rw [List.foldl_cons] at hx
    by_cases hv : (consulta t).isEmpty = true
    · rw [if_pos hv] at hx
      exact ih acc hacc x hx
    · rw [if_neg hv] at hx
      refine ih _ ?_ x hx
      intro y hy
      rcases List.mem_append.mp hy with hy1 | hy2
      · exact hacc y hy1
      · rw [List.mem_singleton.mp hy2]
        exact Bool.not_eq_true _ ▸ hv

/-- C4 counterexample: the claim says the exporter never silently skips
creating the output file when a template has zero matching rows, but
`ExportadorGenerico.exportar_todos` does exactly that: the `continue`
at line 61 leaves the loop before `_salvar_csv`, so a template whose
query returns no rows produces no file at all (and counts as zero
processed), while the template writer would have produced a header-only
file for the same situation. -/
theorem c4_contraexemplo_pulo :
    (exportar_todos (fun _ => []) ["template1"]).1 = [] ∧
    (exportar_todos (fun _ => []) ["template1"]).2 = 0 ∧
    salvar_template_csv (fun _ _ => "") ["colA", "colB"] [] = [["colA", "colB"]] := by
  exact ⟨rfl, rfl, rfl⟩

/-- C4 as amended: in the template exporter
(`_salvar_template_csv`/`_criar_arquivo_vazio`) zero rows do yield a
file holding exactly the header line with the configured columns in
order (provided the template has columns); but the generic exporter
(`ExportadorGenerico.exportar_todos`) silently skips a template whose
query returns no rows — its name never appears among the files
created — so the "never silently skip" half holds only for the
template exporter. -/
theorem c4_cabecalho_corrigido (fmt : String → Registro → String)
    (colunas : List String) (hc : colunas.isEmpty = false)
    (consulta : String → List Registro) (templates : List String) (t : String)
    (hv : (consulta t).isEmpty = true) :
    salvar_template_csv fmt colunas [] = [colunas] ∧
    t ∉ (exportar_todos consulta templates).1 := by
  constructor
  · have h0 : salvar_template_csv fmt colunas [] = criar_arquivo_vazio colunas := rfl
    rw [h0]
    unfold criar_arquivo_vazio
    simp [hc]
  · intro hmem
    have h := exportar_todos_fold_inv consulta templates ([], 0)
      (by intro x hx; simp at hx) t hmem
    rw [hv] at h
    exact absurd h (by decide)

/-- Witness for the amended C4 at a concrete template. -/
theorem c4_cabecalho_corrigido_witness :
    salvar_template_csv (fun _ _ => "") ["matricula", "nome"] [] =
      [["matricula", "nome"]] ∧
    "template1" ∉ (exportar_todos (fun _ => []) ["template1"]).1 :=
  c4_cabecalho_corrigido (fun _ _ => "") ["matricula", "nome"] rfl
    (fun _ => []) ["template1"] "template1" rfl

/-! ## Decimal display formatting
(src/src/utils/mapeador_campos_empresa.py `formatar_valor` lines
1833-1839 and `_extrair_valor_numerico` lines 2174-2203;
src/src/exportadores/exportador_templates_empresa.py
`formatar_numero_br` lines 2037-2053) -/

/-- Python `s.replace(a, b)` for one-character needles. -/
def trocarChar (a b : Char) (s : String) : String :=
  String.mk (s.toList.map (fun c => if c == a then b else c))

/-- The decimal digit character of `n < 10`. -/
def digitoChar (n : Nat) : Char :=
  Char.ofNat (48 + n)

/-- Decimal digits of `n`, most significant first (`fuel`-bounded). -/
def natDigitosAux : Nat → Nat → List Char
  | 0, _ => []
  | fuel + 1, n =>
    if n < 10 then [digitoChar n]
    else natDigitosAux fuel (n / 10) ++ [digitoChar (n % 10)]

/-- Python `str(n)` of a natural number. -/
def natParaString (n : Nat) : String :=
  String.mk (natDigitosAux (n + 1) n)

/-- Python `str(int(...))` of an integer. -/
def intParaString (z : Int) : String :=
  (if z < 0 then "-" else "") ++ natParaString z.natAbs

/-- Round `t / d` (with `d > 0`) to the nearest integer, ties to
even — the rounding of Python `format(f, '.2f')` (the model works on
the exact rational, the source on the nearest binary double). -/
def arredondarMeioPar (t d : Int) : Int :=
  let f := t.fdiv d
  let r := t - d * f
  if 2 * r < d then f
  else if d < 2 * r then f + 1
  else if f % 2 = 0 then f else f + 1

/-- Python `f"{f:.2f}"`: two decimal places, point separator. -/
def formatF2 (q : Rat) : String :=
  let z := arredondarMeioPar (100 * q.num) q.den
  let a := z.natAbs
  (if z < 0 then "-" else "") ++ natParaString (a / 100) ++ "." ++
    String.mk [digitoChar (a % 100 / 10), digitoChar (a % 10)]

/-- The `tipo == "decimal"` branch of
`MapeadorCamposEmpresa.formatar_valor` (lines 1834-1839) on a string
value: `float(str(valor).replace(",", "."))`, then
`f"{f:.2f}".replace(".", ",")`; any parse failure returns the raw value
unchanged. -/
def formatar_valor_decimal (valor : String) : String :=
  match pyFloat (trocarChar ',' '.' valor) with
  | some q => trocarChar '.' ',' (formatF2 q)
  | none => valor

/-- `MapeadorCamposEmpresa._extrair_valor_numerico` (lines 2174-2203):
keep digits and separators, treat `'.'` as thousands separator when both
separators appear, accept a lone comma with at most two decimals as the
decimal point, and fall back to `0.0` when `float` still fails. -/
def extrairValorNumerico (valor : String) : Rat :=
  if valor.isEmpty then 0
  else
    let limpo := valor.toList.filter (fun c => c.isDigit || c == '.' || c == ',')
    let limpo2 :=
      if limpo.contains ',' && limpo.contains '.' then
        (limpo.filter (fun c => c ≠ '.')).map (fun c => if c == ',' then '.' else c)
      else if limpo.contains ',' then
        if limpo.count ',' == 1 && ((limpo.dropWhile (fun c => c ≠ ',')).drop 1).length ≤ 2
        then limpo.map (fun c => if c == ',' then '.' else c)
        else limpo
      else limpo
    (pyFloat (String.mk limpo2)).getD 0

/-- `formatar_numero_br` of the template exporter (lines 2037-2053) on a
string value with the default two decimal places:
`float(valor.replace(',', '.'))`, integers printed bare, other values
with two decimals and comma; a parse failure returns the string
unchanged (via `except: return str(valor)`). -/
def formatarNumeroBr (valor : String) : String :=
  match pyFloat (trocarChar ',' '.' valor) with
  | none => valor
  | some q => if q.den = 1 then intParaString q.num else trocarChar '.' ',' (formatF2 q)

/-- C5 counterexample: for a decimal field with raw value `"1.234,56"`,
`formatar_valor` replaces every comma by a point giving `"1.234.56"`,
`float` fails on the two points, and the `except` returns the raw value
unchanged — the display value is `"1.234,56"`, not the claimed
`"1234,56"`. -/
theorem c5_contraexemplo_decimal :
    formatar_valor_decimal "1.234,56" = "1.234,56" ∧
    formatar_valor_decimal "1.234,56" ≠ "1234,56" := by
  exact ⟨rfl, by decide⟩

/-- C5 as amended: the decimal branch of `formatar_valor` handles a
comma-only or point-only decimal (two places, comma on output), but a
value carrying both separators fails `float` after the global
comma-to-point replacement and passes through unchanged; the
thousands-separator tolerance claimed for it lives only in
`_extrair_valor_numerico`, which `formatar_valor` never calls, and
`formatar_numero_br` likewise returns `"1.234,56"` unchanged. -/
theorem c5_formatacao_decimal_corrigida :
    formatar_valor_decimal "1234,56" = "1234,56" ∧
    formatar_valor_decimal "1234.56" = "1234,56" ∧
    formatar_valor_decimal "7,5" = "7,50" ∧
    formatar_valor_decimal "1.234,56" = "1.234,56" ∧
    extrairValorNumerico "1.234,56" = mkRat 123456 100 ∧
    formatarNumeroBr "1.234,56" = "1.234,56" := by
  refine ⟨rfl, rfl, rfl, rfl, by decide, rfl⟩

/-! ## XML tree builder
(src/src/processadores/processador_xml.py `_elemento_para_dict`
lines 1821-1853) -/

/-- Python `s.strip()`. -/
def pyStrip (s : String) : String :=
  String.mk (tirarEspacos s.toList)

/-- An ElementTree element: tag, attributes in document order, optional
text, children in document order. -/
inductive Elemento where
  | mk (tag : String) (attrib : List (String × String)) (texto : Option String)
      (filhos : List Elemento)

def Elemento.tag : Elemento → String
  | .mk t _ _ _ => t

def Elemento.filhos : Elemento → List Elemento
  | .mk _ _ _ f => f

/-- Python ordered-dict assignment `d[k] = v`: overwrite in place, else
append. -/
def dictSet (k : String) (v : JVal) : List (String × JVal) → List (String × JVal)
  | [] => [(k, v)]
  | (k', v') :: resto => if k' = k then (k', v) :: resto else (k', v') :: dictSet k v resto

/-- Lines 1846-1849: promote a present value to a list if needed and
append the new child. -/
def promover (antigo novo : JVal) : JVal :=
  match antigo with
  | .arr xs => .arr (xs ++ [novo])
  | v => .arr [v, novo]

/-- Lines 1841-1843: strip the namespace wrapper from a child tag —
`tag.split('}')[1]`, the segment between the first and second `'}'`. -/
def stripNsTag (tag : String) : String :=
  if tag.toList.contains '}' then
    String.mk (((tag.toList.dropWhile (fun c => c ≠ '}')).drop 1).takeWhile
      (fun c => c ≠ '}'))
  else tag

mutual

/-- `ProcessadorXML._elemento_para_dict` (lines 1821-1853): the
attributes first (`result.update(elem.attrib)`), then `_text` when the
stripped text is non-empty, then each child under its stripped tag,
promoting an occupied key to a list. -/
def elemento_para_dict : Elemento → List (String × JVal)
  | .mk _ attrib texto filhos =>
    let base := attrib.map (fun kv => (kv.1, JVal.s kv.2))
    let base2 :=
      match texto with
      | none => base
      | some t => if pyStripVazia t then base else dictSet "_text" (JVal.s (pyStrip t)) base
    inserirFilhos filhos base2

/-- The child loop of lines 1836-1851. -/
def inserirFilhos : List Elemento → List (String × JVal) → List (String × JVal)
  | [], r => r
  | c :: resto, r =>
    let cd := JVal.obj (elemento_para_dict c)
    let tag := stripNsTag c.tag
    inserirFilhos resto
      (match List.lookup tag r with
       | none => r ++ [(tag, cd)]
       | some antigo => dictSet tag (promover antigo cd) r)

end

/-- The value the loop accumulates at one key: absent, the single child
dict, or the promoted list. -/
def acumChave : List JVal → Option JVal
  | [] => none
  | [d] => some d
  | ds => some (.arr ds)

/-- The dicts of the children carrying the stripped tag `t`, in document
order. -/
def filhosTag (t : String) (fs : List Elemento) : List JVal :=
  (fs.filter (fun c => stripNsTag c.tag == t)).map
    (fun c => JVal.obj (elemento_para_dict c))

theorem lookup_dictSet (k k' : String) (v : JVal) :
    ∀ r : List (String × JVal),
      List.lookup k (dictSet k' v r) = if k = k' then some v else List.lookup k r := by
  intro r
  induction r with
  | nil =>
    by_cases h : k = k'
    · subst h; simp [dictSet, List.lookup]
    · have hb : (k == k') = false := beq_eq_false_iff_ne.mpr h
      simp [dictSet, List.lookup, hb, h]
  | cons kv resto ih =>
    obtain ⟨k0, v0⟩ := kv
    by_cases h0 : k0 = k'
    · subst h0
      rw [dictSet]
      rw [if_pos rfl]
      by_cases h : k = k0
      · subst h; simp [List.lookup]
      · have hb : (k == k0) = false := beq_eq_false_iff_ne.mpr h
        simp [List.lookup, hb, h]
    · rw [dictSet]
      rw [if_neg h0]
      by_cases h : k = k0
      · subst h
        simp [List.lookup, if_neg h0]
      · have hb : (k == k0) = false := beq_eq_false_iff_ne.mpr h
        simp only [List.lookup, hb]
        exact ih

theorem lookup_append_um (k k' : String) (v : JVal) (r : List (String × JVal)) :
    List.lookup k (r ++ [(k', v)]) =
      match List.lookup k r with
      | some w => some w
      | none => if k = k' then some v else none := by
  induction r with
  | nil =>
    by_cases h : k = k'
    · subst h; simp [List.lookup]
    · have hb : (k == k') = false := beq_eq_false_iff_ne.mpr h
      simp [List.lookup, hb, h]
  | cons kv resto ih =>
    obtain ⟨k0, v0⟩ := kv
    by_cases h : k = k0
    · subst h; simp [List.lookup]
    · have hb : (k == k0) = false := beq_eq_false_iff_ne.mpr h
      simp only [List.cons_append, List.lookup, hb]
      exact ih

theorem acumChave_snoc_obj (vs : List JVal) (d : List (String × JVal))
    (hobj : ∀ v ∈ vs, ∃ ds, v = JVal.obj ds) :
    acumChave (vs ++ [JVal.obj d]) =
      match acumChave vs with
      | none => some (JVal.obj d)
      | some antigo => some (promover antigo (JVal.obj d)) := by
  match vs with
  | [] => rfl
  | [v] =>
    obtain ⟨ds, rfl⟩ := hobj v (by simp)
    rfl
  | v1 :: v2 :: resto =>
    show acumChave (v1 :: v2 :: (resto ++ [JVal.obj d])) = _
    have h1 : acumChave (v1 :: v2 :: (resto ++ [JVal.obj d])) =
        some (.arr (v1 :: v2 :: (resto ++ [JVal.obj d]))) := by
      rw [acumChave] <;> simp
    have h2 : acumChave (v1 :: v2 :: resto) = some (.arr (v1 :: v2 :: resto)) := by
      rw [acumChave] <;> simp
    rw [h1, h2]
    rfl

theorem inserirFilhos_chave (t : String) :
    ∀ (fs : List Elemento) (r : List (String × JVal)) (vs : List JVal),
      List.lookup t r = acumChave vs →
      (∀ v ∈ vs, ∃ ds, v = JVal.obj ds) →
      List.lookup t (inserirFilhos fs r) = acumChave (vs ++ filhosTag t fs) := by
  intro fs
  induction fs with
  | nil =>
    intro r vs hv _
    simp only [inserirFilhos, filhosTag, List.filter_nil, List.map_nil, List.append_nil]
    exact hv
  | cons c resto ih =>
    intro r vs hv hobj
    rw [inserirFilhos]
    by_cases htag : stripNsTag c.tag = t
    · have hbeq : (stripNsTag c.tag == t) = true := beq_iff_eq.mpr htag
      have hfil : filhosTag t (c :: resto) =
          JVal.obj (elemento_para_dict c) :: filhosTag t resto := by
        simp [filhosTag, List.filter_cons, hbeq]
      rw [htag, hv]
      cases hcs : acumChave vs with
      | none =>
        have hnext : List.lookup t (r ++ [(t, JVal.obj (elemento_para_dict c))]) =
            acumChave (vs ++ [JVal.obj (elemento_para_dict c)]) := by
          rw [lookup_append_um, hv, hcs, if_pos rfl,
            acumChave_snoc_obj vs _ hobj, hcs]
        have := ih (r ++ [(t, JVal.obj (elemento_para_dict c))])
          (vs ++ [JVal.obj (elemento_para_dict c)]) hnext
          (by
            intro v hvm
            rcases List.mem_append.mp hvm with h1 | h2
            · exact hobj v h1
            · exact ⟨_, List.mem_singleton.mp h2⟩)
        rw [hfil, this, List.append_assoc]
        rfl
      | some antigo =>
        have hnext : List.lookup t (dictSet t
            (promover antigo (JVal.obj (elemento_para_dict c))) r) =
            acumChave (vs ++ [JVal.obj (elemento_para_dict c)]) := by
          rw [lookup_dictSet, if_pos rfl, acumChave_snoc_obj vs _ hobj, hcs]
        have := ih (dictSet t (promover antigo (JVal.obj (elemento_para_dict c))) r)
          (vs ++ [JVal.obj (elemento_para_dict c)]) hnext
          (by
            intro v hvm
            rcases List.mem_append.mp hvm with h1 | h2
            · exact hobj v h1
            · exact ⟨_, List.mem_singleton.mp h2⟩)
        rw [hfil, this, List.append_assoc]
        rfl
    · have hbeq : (stripNsTag c.tag == t) = false := beq_eq_false_iff_ne.mpr htag
      have hfil : filhosTag t (c :: resto) = filhosTag t resto := by
        simp [filhosTag, List.filter_cons, hbeq]
      rw [hfil]
      cases hl : List.lookup (stripNsTag c.tag) r with
      | none =>
        refine ih _ vs ?_ hobj
        rw [lookup_append_um, hv]
        cases hcs : acumChave vs with
        | none => rw [if_neg (fun he => htag he.symm)]
        | some w => rfl
      | some antigo =>
        refine ih _ vs ?_ hobj
        rw [lookup_dictSet, if_neg (fun he => htag he.symm), hv]

theorem acumChave_longa (ds : List JVal) (h : 2 ≤ ds.length) :
    acumChave ds = some (.arr ds) := by
  match ds with
  | [] => simp at h
  | [d] => simp at h
  | d1 :: d2 :: resto => rw [acumChave] <;> simp

theorem lookup_attrib_none (t : String) (attrib : List (String × String))
    (hat : t ∉ attrib.map Prod.fst) :
    List.lookup t (attrib.map fun kv => (kv.1, JVal.s kv.2)) = none := by
  induction attrib with
  | nil => rfl
  | cons kv resto ih =>
    have hne : t ≠ kv.1 := by
      intro he
      exact hat (by rw [List.map_cons, he]; exact List.mem_cons_self _ _)
    have hb : (t == kv.1) = false := beq_eq_false_iff_ne.mpr hne
    simp only [List.map_cons, List.lookup, hb]
    exact ih (fun hm => hat (by rw [List.map_cons]; exact List.mem_cons_of_mem _ hm))

/-- C6 counterexample: the claim quantifies over every element, but the
keys of the child loop share one dict with the attribute keys and
`_text`.  An element with an attribute named like its single child
produces, at that key, a two-element list mixing the attribute string
and the child dict — not the promised single nested mapping (and with
N repeated children the list has N+1 entries, starting with the
attribute value). -/
theorem c6_contraexemplo_atributo :
    (Elemento.mk "pai" [("filho", "x")] none
      [Elemento.mk "filho" [] none []]).filhos.length = 1 ∧
    elemento_para_dict (Elemento.mk "pai" [("filho", "x")] none
      [Elemento.mk "filho" [] none []]) =
      [("filho", JVal.arr [JVal.s "x", JVal.obj []])] := by
  exact ⟨rfl, rfl⟩

/-- C6 as amended: the repeated-children round-trip holds at every key
that collides neither with an attribute name nor with `_text`: one
child of stripped tag `t` stores the single child dict, `N ≥ 2`
children store the list of their dicts in document order (and the list
has exactly one entry per matching child). -/
theorem c6_arvore_corrigida (tag t : String) (attrib : List (String × String))
    (texto : Option String) (filhos : List Elemento)
    (hat : t ∉ attrib.map Prod.fst) (htx : t ≠ "_text") :
    (∀ c : Elemento, filhos.filter (fun c => stripNsTag c.tag == t) = [c] →
      List.lookup t (elemento_para_dict (.mk tag attrib texto filhos)) =
        some (JVal.obj (elemento_para_dict c))) ∧
    (2 ≤ (filhos.filter (fun c => stripNsTag c.tag == t)).length →
      List.lookup t (elemento_para_dict (.mk tag attrib texto filhos)) =
        some (JVal.arr (filhosTag t filhos))) ∧
    (filhosTag t filhos).length =
      (filhos.filter (fun c => stripNsTag c.tag == t)).length := by
  have hattrib : List.lookup t (attrib.map fun kv => (kv.1, JVal.s kv.2)) = none :=
    lookup_attrib_none t attrib hat
  have hlook : List.lookup t (elemento_para_dict (.mk tag attrib texto filhos)) =
      acumChave (filhosTag t filhos) := by
    cases texto with
    | none =>
      have h := inserirFilhos_chave t filhos
        (attrib.map fun kv => (kv.1, JVal.s kv.2)) [] hattrib (by simp)
      simpa [elemento_para_dict] using h
    | some s0 =>
      cases hsv : pyStripVazia s0 with
      | true =>
        have h := inserirFilhos_chave t filhos
          (attrib.map fun kv => (kv.1, JVal.s kv.2)) [] hattrib (by simp)
        simpa [elemento_para_dict, hsv] using h
      | false =>
        have hbase : List.lookup t (dictSet "_text" (JVal.s (pyStrip s0))
            (attrib.map fun kv => (kv.1, JVal.s kv.2))) = none := by
          rw [lookup_dictSet, if_neg htx, hattrib]
        have h := inserirFilhos_chave t filhos
          (dictSet "_text" (JVal.s (pyStrip s0))
            (attrib.map fun kv => (kv.1, JVal.s kv.2))) [] hbase (by simp)
        simpa [elemento_para_dict, hsv] using h
  refine ⟨?_, ?_, ?_⟩
  · intro c hc
    have hft : filhosTag t filhos = [JVal.obj (elemento_para_dict c)] := by
      unfold filhosTag
      rw [hc]
      rfl
    rw [hlook, hft]
    rfl
  · intro hn
    have hlen : 2 ≤ (filhosTag t filhos).length := by
      unfold filhosTag
      rw [List.length_map]
      exact hn
    rw [hlook, acumChave_longa _ hlen]
  · unfold filhosTag
    exact List.length_map _ _

/-- Witness for the amended C6 at a concrete element: two `dependente`
children under a worker element whose attribute is `Id`. -/
theorem c6_arvore_corrigida_witness :
    (∀ c : Elemento,
      [Elemento.mk "dependente" [] none [],
       Elemento.mk "dependente" [] (some "d2") []].filter
        (fun c => stripNsTag c.tag == "dependente") = [c] →
      List.lookup "dependente" (elemento_para_dict (.mk "trabalhador" [("Id", "ID1")]
        (some " ")
        [Elemento.mk "dependente" [] none [],
         Elemento.mk "dependente" [] (some "d2") []])) =
        some (JVal.obj (elemento_para_dict c))) ∧
    (2 ≤ ([Elemento.mk "dependente" [] none [],
           Elemento.mk "dependente" [] (some "d2") []].filter
        (fun c => stripNsTag c.tag == "dependente")).length →
      List.lookup "dependente" (elemento_para_dict (.mk "trabalhador" [("Id", "ID1")]
        (some " ")
        [Elemento.mk "dependente" [] none [],
         Elemento.mk "dependente" [] (some "d2") []])) =
        some (JVal.arr (filhosTag "dependente"
          [Elemento.mk "dependente" [] none [],
           Elemento.mk "dependente" [] (some "d2") []]))) ∧
    (filhosTag "dependente"
      [Elemento.mk "dependente" [] none [],
       Elemento.mk "dependente" [] (some "d2") []]).length =
      ([Elemento.mk "dependente" [] none [],
        Elemento.mk "dependente" [] (some "d2") []].filter
        (fun c => stripNsTag c.tag == "dependente")).length :=
  c6_arvore_corrigida "trabalhador" "dependente" [("Id", "ID1")] (some " ")
    [Elemento.mk "dependente" [] none [],
     Elemento.mk "dependente" [] (some "d2") []]
    (by decide) (by decide)

/-! ## Layout identification
(src/src/processadores/processador_xml.py lines 20-28, 229-287) -/

/-- `ESOCIAL_EVENT_PATTERNS` (lines 20-28). -/
def ESOCIAL_EVENT_PATTERNS : List (String × String) :=
  [("evtTabLotacao", "S-1020"), ("evtTabCargo", "S-1030"), ("evtRemun", "S-1200"),
   ("evtAdmissao", "S-2200"), ("evtAltCadastral", "S-2205"),
   ("evtAltContratual", "S-2206"), ("evtAfastTemp", "S-2230")]

mutual

/-- ElementTree `el.iter()`: the element itself, then its descendants,
in document (preorder) order. -/
def iterElem : Elemento → List Elemento
  | .mk t a x fs => .mk t a x fs :: iterFilhos fs

def iterFilhos : List Elemento → List Elemento
  | [] => []
  | c :: resto => iterElem c ++ iterFilhos resto

end

/-- The test of lines 236 and 239:
`tag.endswith('eSocial') or tag.endswith('eSocial>')`. -/
def endsESocial (tag : String) : Bool :=
  "eSocial".toList.isSuffixOf tag.toList || "eSocial>".toList.isSuffixOf tag.toList

/-- `encontrar_primeiro_esocial` (lines 229-241): the root if it already
matches, else the first matching element of `root.iter()`. -/
def encontrar_primeiro_esocial (root : Elemento) : Option Elemento :=
  if endsESocial root.tag then some root
  else (iterElem root).find? (fun el => endsESocial el.tag)

/-- The child loop of lines 252-259: the first direct child whose
stripped tag is a known event marker decides the layout. -/
def primeiroEvento (fs : List Elemento) : Option String :=
  fs.findSome? (fun c => List.lookup (stripNsTag c.tag) ESOCIAL_EVENT_PATTERNS)

/-- Lines 250-287 of `identificar_layout`, once the root has been moved
to the first `eSocial` envelope: under an envelope take the first
recognized direct child, for an event root look its own tag up;
otherwise scan all descendants for a known marker, then for any `evt*`
tag. -/
def corpoLayout (root : Elemento) : Option String :=
  match
    (if "eSocial".toList.isSuffixOf root.tag.toList then
      primeiroEvento root.filhos
    else
      List.lookup (stripNsTag root.tag) ESOCIAL_EVENT_PATTERNS) with
  | some c => some c
  | none =>
    match (iterElem root).findSome?
        (fun el => List.lookup (stripNsTag el.tag) ESOCIAL_EVENT_PATTERNS) with
    | some c => some c
    | none =>
      ((iterElem root).find?
        (fun el => "evt".toList.isPrefixOf (stripNsTag el.tag).toList)).map
        (fun el => stripNsTag el.tag)

/-- `identificar_layout` (lines 243-287): jump to the first `eSocial`
envelope if any, then decide by `corpoLayout`. -/
def identificar_layout (raiz : Elemento) : Option String :=
  corpoLayout
    (match encontrar_primeiro_esocial raiz with
     | some el => el
     | none => raiz)

/-- The namespace-qualified ElementTree tag `\x7buri\x7dlocal`. -/
def comNs (u tagLocal : String) : String :=
  String.mk ('{' :: u.toList ++ '}' :: tagLocal.toList)

mutual

/-- The same document with every tag qualified by the namespace `u` —
two fixtures differing only in the namespace version string are
`aplicarNs u1 e` and `aplicarNs u2 e` for the same skeleton `e`. -/
def aplicarNs (u : String) : Elemento → Elemento
  | .mk t a x fs => .mk (comNs u t) a x (aplicarNsLista u fs)

def aplicarNsLista (u : String) : List Elemento → List Elemento
  | [] => []
  | c :: resto => aplicarNs u c :: aplicarNsLista u resto

end

theorem Elemento.tag_aplicar (u : String) (e : Elemento) :
    (aplicarNs u e).tag = comNs u e.tag := by
  cases e
  rw [aplicarNs]
  rfl

theorem Elemento.filhos_aplicar (u : String) (e : Elemento) :
    (aplicarNs u e).filhos = aplicarNsLista u e.filhos := by
  cases e
  rw [aplicarNs]
  rfl

theorem aplicarNsLista_map (u : String) :
    ∀ fs : List Elemento, aplicarNsLista u fs = fs.map (aplicarNs u) := by
  intro fs
  induction fs with
  | nil => rfl
  | cons c resto ih => rw [aplicarNsLista, List.map_cons, ih]

mutual

theorem iterElem_aplicar (u : String) :
    ∀ e : Elemento, iterElem (aplicarNs u e) = (iterElem e).map (aplicarNs u)
  | .mk t a x fs => by
    rw [aplicarNs, iterElem, iterElem, List.map_cons, aplicarNs,
      ← iterFilhos_aplicar u fs, aplicarNsLista_map]

theorem iterFilhos_aplicar (u : String) :
    ∀ fs : List Elemento, iterFilhos (aplicarNsLista u fs) = (iterFilhos fs).map (aplicarNs u)
  | [] => by rw [aplicarNsLista]; simp [iterFilhos]
  | c :: resto => by
    rw [aplicarNsLista, iterFilhos, iterFilhos, iterElem_aplicar u c,
      iterFilhos_aplicar u resto, List.map_append]

end

theorem iter_self (e : Elemento) : e ∈ iterElem e := by
  cases e
  rw [iterElem]
  exact List.mem_cons_self _ _

mutual

theorem iter_sub : ∀ e el : Elemento, el ∈ iterElem e → ∀ y ∈ iterElem el, y ∈ iterElem e
  | .mk t a x fs => by
    intro el hel y hy
    rw [iterElem] at hel ⊢
    rcases List.mem_cons.mp hel with he | hf
    · subst he
      rw [iterElem] at hy
      exact hy
    · exact List.mem_cons_of_mem _ (iterFilhos_sub fs el hf y hy)

theorem iterFilhos_sub :
    ∀ (fs : List Elemento) (el : Elemento), el ∈ iterFilhos fs →
      ∀ y ∈ iterElem el, y ∈ iterFilhos fs
  | [], el => by
    intro h
    rw [iterFilhos] at h
    exact absurd h (List.not_mem_nil el)
  | c :: resto, el => by
    intro hel y hy
    rw [iterFilhos] at hel ⊢
    rcases List.mem_append.mp hel with h1 | h2
    · exact List.mem_append_left _ (iter_sub c el h1 y hy)
    · exact List.mem_append_right _ (iterFilhos_sub resto el h2 y hy)

end

theorem filho_mem_iterFilhos : ∀ (fs : List Elemento) (c : Elemento), c ∈ fs → c ∈ iterFilhos fs := by
  intro fs
  induction fs with
  | nil => intro c h; exact absurd h (List.not_mem_nil c)
  | cons d resto ih =>
    intro c h
    rw [iterFilhos]
    rcases List.mem_cons.mp h with he | hm
    · subst he
      exact List.mem_append_left _ (iter_self c)
    · exact List.mem_append_right _ (ih c hm)

theorem filho_mem_iter (e : Elemento) (c : Elemento) (h : c ∈ e.filhos) : c ∈ iterElem e := by
  cases e
  rw [iterElem]
  exact List.mem_cons_of_mem _ (filho_mem_iterFilhos _ c h)

theorem sufixo_atras (p l1 l2 : List Char) (hp : '}' ∉ p) (h1 : '}' ∉ l1) :
    p.isSuffixOf (l1 ++ '}' :: l2) = p.isSuffixOf l2 := by
  cases hs : p.isSuffixOf l2 with
  | true =>
    rw [List.isSuffixOf_iff_suffix] at hs ⊢
    obtain ⟨t, ht⟩ := hs
    exact ⟨l1 ++ '}' :: t, by rw [← ht]; simp⟩
  | false =>
    refine Bool.eq_false_iff.mpr ?_
    intro htrue
    rw [List.isSuffixOf_iff_suffix] at htrue
    by_cases hlen : p.length ≤ l2.length
    · have hsl2 : l2 <:+ (l1 ++ '}' :: l2) := ⟨l1 ++ ['}'], by simp⟩
      have := List.suffix_of_suffix_length_le htrue hsl2 hlen
      rw [← List.isSuffixOf_iff_suffix] at this
      rw [hs] at this
      exact Bool.false_ne_true this
    · obtain ⟨t, ht⟩ := htrue
      have hlt : t.length ≤ l1.length := by
        have h2 := congrArg List.length ht
        simp only [List.length_append, List.length_cons] at h2
        omega
      have hpd : p = (l1.drop t.length) ++ '}' :: l2 := by
        have h3 : p = (t ++ p).drop t.length := by
          rw [List.drop_left]
        rw [ht] at h3
        rw [h3, List.drop_append_of_le_length hlt]
      have : '}' ∈ p := by
        rw [hpd]
        exact List.mem_append_right _ (List.mem_cons_self _ _)
      exact hp this

theorem semFecha_contains {l : List Char} (h : '}' ∉ l) : l.contains '}' = false := by
  cases hc : l.contains '}' with
  | false => rfl
  | true =>
    obtain ⟨a, ham, hbeq⟩ := List.contains_iff_exists_mem_beq.mp hc
    rw [show ('}' : Char) = a from beq_iff_eq.mp hbeq] at h
    exact absurd ham h

theorem semFecha_strip (t : String) (h : '}' ∉ t.toList) : stripNsTag t = t := by
  unfold stripNsTag
  rw [semFecha_contains h]
  rfl

theorem dropWhile_ate_fecha (r : List Char) :
    ∀ l : List Char, '}' ∉ l →
      List.dropWhile (fun c => c ≠ '}') (l ++ '}' :: r) = '}' :: r := by
  intro l
  induction l with
  | nil =>
    intro _
    simp [List.dropWhile]
  | cons a resto ih =>
    intro h
    have ha : a ≠ '}' := fun he => h (he ▸ List.mem_cons_self _ _)
    simp only [List.cons_append, List.dropWhile]
    rw [decide_eq_true ha]
    exact ih (fun hm => h (List.mem_cons_of_mem _ hm))

theorem takeWhile_sem_fecha : ∀ l : List Char, '}' ∉ l →
    List.takeWhile (fun c => c ≠ '}') l = l := by
  intro l
  induction l with
  | nil => intro _; rfl
  | cons a resto ih =>
    intro h
    have ha : a ≠ '}' := fun he => h (he ▸ List.mem_cons_self _ _)
    simp only [List.takeWhile]
    rw [decide_eq_true ha]
    rw [ih (fun hm => h (List.mem_cons_of_mem _ hm))]

theorem strip_comNs (u t : String) (hu : '}' ∉ u.toList) (ht : '}' ∉ t.toList) :
    stripNsTag (comNs u t) = t := by
  have htl : (comNs u t).toList = ('{' :: u.toList) ++ '}' :: t.toList := rfl
  unfold stripNsTag
  rw [htl]
  have hmem : (('{' :: u.toList) ++ '}' :: t.toList).contains '}' = true :=
    List.elem_eq_true_of_mem (List.mem_append_right _ (List.mem_cons_self _ _))
  rw [hmem]
  have hu2 : '}' ∉ '{' :: u.toList := by
    intro hm
    rcases List.mem_cons.mp hm with he | hm2
    · exact absurd he.symm (by decide)
    · exact hu hm2
  rw [if_pos rfl]
  rw [dropWhile_ate_fecha t.toList ('{' :: u.toList) hu2]
  simp only [List.drop_succ_cons, List.drop_zero]
  rw [takeWhile_sem_fecha t.toList ht]
  rfl

theorem endsESocial_comNs (u t : String) (hu : '}' ∉ u.toList) :
    endsESocial (comNs u t) = endsESocial t := by
  have htl : (comNs u t).toList = ('{' :: u.toList) ++ '}' :: t.toList := rfl
  have hu2 : '}' ∉ '{' :: u.toList := by
    intro hm
    rcases List.mem_cons.mp hm with he | hm2
    · exact absurd he.symm (by decide)
    · exact hu hm2
  unfold endsESocial
  rw [htl, sufixo_atras _ _ _ (by decide) hu2, sufixo_atras _ _ _ (by decide) hu2]

theorem sufixoESocial_comNs (u t : String) (hu : '}' ∉ u.toList) :
    "eSocial".toList.isSuffixOf (comNs u t).toList =
      "eSocial".toList.isSuffixOf t.toList := by
  have htl : (comNs u t).toList = ('{' :: u.toList) ++ '}' :: t.toList := rfl
  have hu2 : '}' ∉ '{' :: u.toList := by
    intro hm
    rcases List.mem_cons.mp hm with he | hm2
    · exact absurd he.symm (by decide)
    · exact hu hm2
  rw [htl, sufixo_atras _ _ _ (by decide) hu2]

theorem find?_congr_mem {α : Type} (p q : α → Bool) :
    ∀ l : List α, (∀ x ∈ l, p x = q x) → l.find? p = l.find? q := by
  intro l
  induction l with
  | nil => intro _; rfl
  | cons a resto ih =>
    intro h
    rw [List.find?_cons, List.find?_cons, h a (List.mem_cons_self _ _)]
    cases q a with
    | true => rfl
    | false => exact ih (fun x hx => h x (List.mem_cons_of_mem _ hx))

theorem findSome?_congr_mem {α β : Type} (p q : α → Option β) :
    ∀ l : List α, (∀ x ∈ l, p x = q x) → l.findSome? p = l.findSome? q := by
  intro l
  induction l with
  | nil => intro _; rfl
  | cons a resto ih =>
    intro h
    rw [List.findSome?_cons, List.findSome?_cons, h a (List.mem_cons_self _ _)]
    cases q a with
    | some b => rfl
    | none => exact ih (fun x hx => h x (List.mem_cons_of_mem _ hx))

theorem encontrar_mem {e r : Elemento} (h : encontrar_primeiro_esocial e = some r) :
    r ∈ iterElem e := by
  unfold encontrar_primeiro_esocial at h
  by_cases hc : endsESocial e.tag = true
  · rw [if_pos hc] at h
    rw [← Option.some.injEq _ _ |>.mp h]
    exact iter_self e
  · rw [if_neg hc] at h
    exact List.mem_of_find?_eq_some h

theorem encontrar_aplicar (u : String) (e : Elemento) (hu : '}' ∉ u.toList) :
    encontrar_primeiro_esocial (aplicarNs u e) =
      (encontrar_primeiro_esocial e).map (aplicarNs u) := by
  unfold encontrar_primeiro_esocial
  rw [Elemento.tag_aplicar, endsESocial_comNs u _ hu]
  by_cases hc : endsESocial e.tag = true
  · rw [if_pos hc, if_pos hc]
    rfl
  · rw [if_neg hc, if_neg hc]
    rw [iterElem_aplicar, List.find?_map]
    rw [find?_congr_mem ((fun el => endsESocial el.tag) ∘ aplicarNs u)
      (fun el => endsESocial el.tag) (iterElem e) ?_]
    intro x _
    simp only [Function.comp]
    rw [Elemento.tag_aplicar, endsESocial_comNs u _ hu]

theorem corpo_aplicar (u : String) (r : Elemento) (hu : '}' ∉ u.toList)
    (hr : ∀ el ∈ iterElem r, '}' ∉ el.tag.toList) :
    corpoLayout (aplicarNs u r) = corpoLayout r := by
  have hrt : '}' ∉ r.tag.toList := hr r (iter_self r)
  have hpasso :
      (if "eSocial".toList.isSuffixOf (aplicarNs u r).tag.toList then
        primeiroEvento (aplicarNs u r).filhos
      else
        List.lookup (stripNsTag (aplicarNs u r).tag) ESOCIAL_EVENT_PATTERNS) =
      (if "eSocial".toList.isSuffixOf r.tag.toList then
        primeiroEvento r.filhos
      else
        List.lookup (stripNsTag r.tag) ESOCIAL_EVENT_PATTERNS) := by
    rw [Elemento.tag_aplicar, sufixoESocial_comNs u _ hu]
    by_cases hC : "eSocial".toList.isSuffixOf r.tag.toList = true
    · rw [if_pos hC, if_pos hC]
      unfold primeiroEvento
      rw [Elemento.filhos_aplicar, aplicarNsLista_map, List.findSome?_map]
      refine findSome?_congr_mem _ _ r.filhos ?_
      intro c hc
      have hct : '}' ∉ c.tag.toList := hr c (filho_mem_iter r c hc)
      simp only [Function.comp]
      rw [Elemento.tag_aplicar, strip_comNs u _ hu hct, semFecha_strip _ hct]
    · rw [if_neg hC, if_neg hC]
      rw [strip_comNs u _ hu hrt, semFecha_strip _ hrt]
  have hfb1 : (iterElem (aplicarNs u r)).findSome?
      (fun el => List.lookup (stripNsTag el.tag) ESOCIAL_EVENT_PATTERNS) =
      (iterElem r).findSome?
      (fun el => List.lookup (stripNsTag el.tag) ESOCIAL_EVENT_PATTERNS) := by
    rw [iterElem_aplicar, List.findSome?_map]
    refine findSome?_congr_mem _ _ _ ?_
    intro x hx
    simp only [Function.comp]
    rw [Elemento.tag_aplicar, strip_comNs u _ hu (hr x hx), semFecha_strip _ (hr x hx)]
  have hfb2 : ((iterElem (aplicarNs u r)).find?
      (fun el => "evt".toList.isPrefixOf (stripNsTag el.tag).toList)).map
      (fun el => stripNsTag el.tag) =
      ((iterElem r).find?
        (fun el => "evt".toList.isPrefixOf (stripNsTag el.tag).toList)).map
      (fun el => stripNsTag el.tag) := by
    rw [iterElem_aplicar, List.find?_map]
    rw [find?_congr_mem ((fun el => "evt".toList.isPrefixOf (stripNsTag el.tag).toList)
        ∘ aplicarNs u)
      (fun el => "evt".toList.isPrefixOf (stripNsTag el.tag).toList) (iterElem r) ?_]
    · cases hf : (iterElem r).find?
          (fun el => "evt".toList.isPrefixOf (stripNsTag el.tag).toList) with
      | none => rfl
      | some el =>
        have hmem := List.mem_of_find?_eq_some hf
        simp only [Option.map_some']
        rw [Elemento.tag_aplicar, strip_comNs u _ hu (hr el hmem),
          semFecha_strip _ (hr el hmem)]
    · intro x hx
      simp only [Function.comp]
      rw [Elemento.tag_aplicar, strip_comNs u _ hu (hr x hx), semFecha_strip _ (hr x hx)]
  unfold corpoLayout
  rw [hpasso, hfb1, hfb2]

theorem identificar_aplicar (u : String) (e : Elemento) (hu : '}' ∉ u.toList)
    (he : ∀ el ∈ iterElem e, '}' ∉ el.tag.toList) :
    identificar_layout (aplicarNs u e) = identificar_layout e := by
  unfold identificar_layout
  rw [encontrar_aplicar u e hu]
  cases henc : encontrar_primeiro_esocial e with
  | none =>
    simp only [Option.map_none']
    exact corpo_aplicar u e hu he
  | some r =>
    simp only [Option.map_some']
    refine corpo_aplicar u r hu ?_
    intro el hel
    exact he el (iter_sub e r (encontrar_mem henc) el hel)

/-- The fixture of the C7 counterexample: an `eSocial` envelope whose
first child is `evtRemun`, with `evtAdmissao` nested deeper. -/
def eC7 : Elemento :=
  .mk "eSocial" [] none
    [.mk "evtRemun" [] none [.mk "evtAdmissao" [] none []]]

/-- C7 counterexample: the claim promises `S-2200` for any document
containing the marker `evtAdmissao` anywhere under its `eSocial`
envelope, but the child loop of lines 252-259 returns the layout of the
first recognized child: with `evtAdmissao` nested under an `evtRemun`
child the document is identified as `S-1200`. -/
theorem c7_contraexemplo_marcador :
    (iterElem eC7).any (fun el => stripNsTag el.tag == "evtAdmissao") = true ∧
    identificar_layout eC7 = some "S-1200" ∧
    identificar_layout eC7 ≠ some "S-2200" := by
  refine ⟨rfl, rfl, by decide⟩

/-- C7 as amended: identification is invariant under the namespace URI
(two documents sharing local tag names, wrapped in any two `\x7d`-free
URIs, resolve to the same layout); and the marker rule holds in
first-marker form — when the first recognized direct child of the
`eSocial` envelope is `evtAdmissao`, the layout is `S-2200`.  The
original "anywhere under the envelope" form is refuted by the
counterexample. -/
theorem c7_identificacao_corrigida (u1 u2 : String) (e : Elemento)
    (hu1 : '}' ∉ u1.toList) (hu2 : '}' ∉ u2.toList)
    (he : ∀ el ∈ iterElem e, '}' ∉ el.tag.toList) :
    identificar_layout (aplicarNs u1 e) = identificar_layout (aplicarNs u2 e) ∧
    (∀ (tagR : String) (a : List (String × String)) (x : Option String)
        (c : Elemento) (resto : List Elemento),
      "eSocial".toList.isSuffixOf tagR.toList = true →
      stripNsTag c.tag = "evtAdmissao" →
      identificar_layout (.mk tagR a x (c :: resto)) = some "S-2200") := by
  constructor
  · rw [identificar_aplicar u1 e hu1 he, identificar_aplicar u2 e hu2 he]
  · intro tagR a x c resto hsuf hstrip
    have hends : endsESocial (Elemento.mk tagR a x (c :: resto)).tag = true := by
      unfold endsESocial
      simp only [Elemento.tag]
      rw [hsuf, Bool.true_or]
    have henc : encontrar_primeiro_esocial (.mk tagR a x (c :: resto)) =
        some (.mk tagR a x (c :: resto)) := by
      unfold encontrar_primeiro_esocial
      rw [if_pos hends]
    unfold identificar_layout
    rw [henc]
    unfold corpoLayout
    simp only [Elemento.tag, Elemento.filhos]
    rw [if_pos hsuf]
    have hpe : primeiroEvento (c :: resto) = some "S-2200" := by
      unfold primeiroEvento
      have hlk : List.lookup (stripNsTag c.tag) ESOCIAL_EVENT_PATTERNS =
          some "S-2200" := by
        rw [hstrip]
        rfl
      rw [List.findSome?_cons, hlk]
    rw [hpe]

/-- Witness for the amended C7: the same admission document wrapped in
two different namespace version URIs resolves identically, and the
first-child marker rule produces `S-2200`. -/
theorem c7_identificacao_corrigida_witness :
    identificar_layout (aplicarNs "esocial/v_S_01_00_00"
      (.mk "eSocial" [] none [.mk "evtAdmissao" [] none []])) =
    identificar_layout (aplicarNs "esocial/v_S_01_03_00"
      (.mk "eSocial" [] none [.mk "evtAdmissao" [] none []])) ∧
    (∀ (tagR : String) (a : List (String × String)) (x : Option String)
        (c : Elemento) (resto : List Elemento),
      "eSocial".toList.isSuffixOf tagR.toList = true →
      stripNsTag c.tag = "evtAdmissao" →
      identificar_layout (.mk tagR a x (c :: resto)) = some "S-2200") :=
  c7_identificacao_corrigida "esocial/v_S_01_00_00" "esocial/v_S_01_03_00"
    (.mk "eSocial" [] none [.mk "evtAdmissao" [] none []])
    (by decide) (by decide) (by decide)

/-! ## Collection extraction
(src/src/exportadores/exportador_templates_empresa.py
`_extrair_array_para_template` lines 189-265) -/

/-- Python `dict(registro)` followed by `registro_completo.update(item)`
(lines 247-248): every item entry overwrites the copy in place or is
appended. -/
def dictUpdate (base novos : Registro) : Registro :=
  novos.foldl (fun r kv => dictSet kv.1 kv.2 r) base

/-- The item extraction of lines 210-231: `registro.get('json_data')`,
nothing for a falsy value, else the extraction method's result (a
non-list result is the empty list). -/
def itensDe (metodo : JVal → List JVal) (registro : Registro) : List JVal :=
  match registroObter registro "json_data" with
  | some js => if jfalsy js then [] else metodo js
  | none => []

/-- `_extrair_array_para_template` (lines 189-265): per record, with no
items the single fallback row from the parent record, else one row per
*truthy dict* item, resolved against the parent record updated with the
item (`if item and isinstance(item, dict)`, line 246). -/
def extrair_array_para_template (mapeamentos : List (String × Mapeamento))
    (metodo : JVal → List JVal) (dados : List Registro) (colunas : List String)
    (chave_template : String) : List Registro :=
  dados.foldl (fun acc registro =>
    let itens := itensDe metodo registro
    if itens.isEmpty then
      acc ++ [colunas.map (fun c =>
        (c, extrair_valor_prioritario mapeamentos registro c chave_template))]
    else
      acc ++ itens.filterMap (fun item =>
        match item with
        | JVal.obj campos =>
          if campos.isEmpty then none
          else some (colunas.map (fun c =>
            (c, extrair_valor_prioritario mapeamentos
              (dictUpdate registro campos) c chave_template)))
        | _ => none)) []

/-- C9 counterexample: the claim says one row per extracted item, but
line 246 (`if item and isinstance(item, dict)`) silently drops falsy or
non-dict items: a record whose extraction yields the single empty-dict
item produces zero rows — neither the per-item row nor the zero-item
fallback. -/
theorem c9_contraexemplo_item_vazio :
    itensDe (fun _ => [JVal.obj []]) [("id", JVal.n 1), ("json_data", JVal.s "x")] =
      [JVal.obj []] ∧
    extrair_array_para_template [] (fun _ => [JVal.obj []])
      [[("id", JVal.n 1), ("json_data", JVal.s "x")]] ["id"] "t" = [] := by
  exact ⟨rfl, rfl⟩

theorem lookup_dictUpdate_nmem :
    ∀ (novos base : Registro) (k : String), k ∉ novos.map Prod.fst →
      List.lookup k (dictUpdate base novos) = List.lookup k base := by
  intro novos
  induction novos with
  | nil => intro base k _; rfl
  | cons kv resto ih =>
    intro base k hk
    have h1 : k ∉ resto.map Prod.fst := fun hm => hk (by
      rw [List.map_cons]; exact List.mem_cons_of_mem _ hm)
    have h2 : k ≠ kv.1 := fun he => hk (by
      rw [List.map_cons, he]; exact List.mem_cons_self _ _)
    show List.lookup k (dictUpdate (dictSet kv.1 kv.2 base) resto) = List.lookup k base
    rw [ih _ k h1, lookup_dictSet, if_neg h2]

theorem lookup_dictUpdate_mem :
    ∀ (novos base : Registro) (k : String) (v : JVal),
      (novos.map Prod.fst).Nodup → List.lookup k novos = some v →
      List.lookup k (dictUpdate base novos) = some v := by
  intro novos
  induction novos with
  | nil => intro base k v _ h; simp [List.lookup] at h
  | cons kv resto ih =>
    intro base k v hnd hlk
    rw [List.map_cons, List.nodup_cons] at hnd
    show List.lookup k (dictUpdate (dictSet kv.1 kv.2 base) resto) = some v
    by_cases hk : k = kv.1
    · have hb : (k == kv.1) = true := beq_iff_eq.mpr hk
      rw [List.lookup, hb] at hlk
      rw [lookup_dictUpdate_nmem resto _ k (hk ▸ hnd.1), lookup_dictSet, if_pos hk]
      exact hlk
    · have hb : (k == kv.1) = false := beq_eq_false_iff_ne.mpr hk
      rw [List.lookup, hb] at hlk
      exact ih _ k v hnd.2 hlk

theorem filtro_itens_comprimento (mapeamentos : List (String × Mapeamento))
    (colunas : List String) (chave : String) (registro : Registro) :
    ∀ itens : List JVal,
      (∀ item ∈ itens, ∃ campos, item = JVal.obj campos ∧ campos ≠ []) →
      (itens.filterMap (fun item =>
        match item with
        | JVal.obj campos =>
          if campos.isEmpty then none
          else some (colunas.map (fun c =>
            (c, extrair_valor_prioritario mapeamentos
              (dictUpdate registro campos) c chave)))
        | _ => none)).length = itens.length := by
  intro itens
  induction itens with
  | nil => intro _; rfl
  | cons item resto ih =>
    intro hall
    obtain ⟨campos, rfl, hcn⟩ := hall item (List.mem_cons_self _ _)
    have hie : campos.isEmpty = false := by
      cases campos with
      | nil => exact absurd rfl hcn
      | cons a l => rfl
    rw [List.filterMap_cons]
    simp only [hie, Bool.false_eq_true, if_false]
    rw [List.length_cons, List.length_cons,
      ih (fun x hx => hall x (List.mem_cons_of_mem _ hx))]

/-- C9 as amended: with zero extracted items the record yields exactly
the one fallback row built from the parent record; with items present
the extractor emits one row per *truthy dict* item (skipping the rest,
see the counterexample), each resolved against the parent record updated
with the item, where an item field overrides the parent's field at the
same key. -/
theorem c9_extracao_corrigida (mapeamentos : List (String × Mapeamento))
    (metodo : JVal → List JVal) (registro : Registro) (colunas : List String)
    (chave : String) :
    (itensDe metodo registro = [] →
      extrair_array_para_template mapeamentos metodo [registro] colunas chave =
        [colunas.map (fun c =>
          (c, extrair_valor_prioritario mapeamentos registro c chave))]) ∧
    ((∀ item ∈ itensDe metodo registro, ∃ campos, item = JVal.obj campos ∧ campos ≠ []) →
      itensDe metodo registro ≠ [] →
      (extrair_array_para_template mapeamentos metodo [registro] colunas chave).length =
        (itensDe metodo registro).length) ∧
    (∀ campos : Registro, campos ≠ [] → itensDe metodo registro = [JVal.obj campos] →
      extrair_array_para_template mapeamentos metodo [registro] colunas chave =
        [colunas.map (fun c =>
          (c, extrair_valor_prioritario mapeamentos
            (dictUpdate registro campos) c chave))]) ∧
    (∀ (novos : Registro) (k : String) (v : JVal), (novos.map Prod.fst).Nodup →
      List.lookup k novos = some v →
      List.lookup k (dictUpdate registro novos) = some v) := by
  refine ⟨?_, ?_, ?_, ?_⟩
  · intro h
    unfold extrair_array_para_template
    simp only [List.foldl_cons, List.foldl_nil]
    simp only [h, List.isEmpty_nil, if_true, List.nil_append]
  · intro hall hne
    have hie : (itensDe metodo registro).isEmpty = false := by
      cases hi : itensDe metodo registro with
      | nil => exact absurd hi hne
      | cons a l => rfl
    unfold extrair_array_para_template
    simp only [List.foldl_cons, List.foldl_nil]
    simp only [hie, Bool.false_eq_true, if_false, List.nil_append]
    exact filtro_itens_comprimento mapeamentos colunas chave registro _ hall
  · intro campos hcn hi
    have hie : campos.isEmpty = false := by
      cases campos with
      | nil => exact absurd rfl hcn
      | cons a l => rfl
    unfold extrair_array_para_template
    simp only [List.foldl_cons, List.foldl_nil]
    simp only [hi, List.isEmpty_cons, Bool.false_eq_true, if_false, List.nil_append,
      List.filterMap_cons, hie, List.filterMap_nil]
  · intro novos k v hnd hlk
    exact lookup_dictUpdate_mem novos registro k v hnd hlk

/-- Witness for the amended C9 at concrete records: a record with no
items produces the single fallback row; a single dependent item produces
the single merged row; the merged record prefers the item's `cpf`. -/
theorem c9_extracao_corrigida_witness :
    (extrair_array_para_template [] (fun _ => [])
      [[("cpf", JVal.s "111"), ("json_data", JVal.s "j")]] ["cpf"] "t" =
      [["cpf"].map (fun c =>
        (c, extrair_valor_prioritario []
          [("cpf", JVal.s "111"), ("json_data", JVal.s "j")] c "t"))]) ∧
    (extrair_array_para_template [] (fun _ => [JVal.obj [("cpf", JVal.s "222")]])
      [[("cpf", JVal.s "111"), ("json_data", JVal.s "j")]] ["cpf"] "t" =
      [["cpf"].map (fun c =>
        (c, extrair_valor_prioritario []
          (dictUpdate [("cpf", JVal.s "111"), ("json_data", JVal.s "j")]
            [("cpf", JVal.s "222")]) c "t"))]) ∧
    List.lookup "cpf" (dictUpdate [("cpf", JVal.s "111"), ("json_data", JVal.s "j")]
      [("cpf", JVal.s "222")]) = some (JVal.s "222") :=
  ⟨(c9_extracao_corrigida [] (fun _ => [])
      [("cpf", JVal.s "111"), ("json_data", JVal.s "j")] ["cpf"] "t").1 rfl,
   (c9_extracao_corrigida [] (fun _ => [JVal.obj [("cpf", JVal.s "222")]])
      [("cpf", JVal.s "111"), ("json_data", JVal.s "j")] ["cpf"] "t").2.2.1
      [("cpf", JVal.s "222")] (by simp) rfl,
   (c9_extracao_corrigida [] (fun _ => [JVal.obj [("cpf", JVal.s "222")]])
      [("cpf", JVal.s "111"), ("json_data", JVal.s "j")] ["cpf"] "t").2.2.2
      [("cpf", JVal.s "222")] "cpf" (JVal.s "222") (by simp) rfl⟩
